import Mathlib

/-!
Shallow embedding of `src/setup2upypackage/pyproject2upypackage.py`
(class `Pyproject2uPyPackage`), which derives a MicroPython `package.json`
manifest from a `pyproject.toml` and validates an existing manifest against it.

Modelling conventions:
* TOML data realizable at the paths the code reads is modelled by typed
  records (`PyProject` and friends); a key that the code's `.get` chain may
  find absent is an `Option` field.
* Python exceptions become `Except PyErr`; the distinct exception classes the
  code can raise are the `PyErr` constructors.
* The filesystem is a parameter: `fs` lists the existing files under the
  project root (paths relative to the root, in `glob` enumeration order).
* External collaborators (changelog2version's `ExtractVersion`, dynamic module
  loading, `setuptools.find_namespace_packages`) are oracles carried in the
  instance: their answers are inputs, the control flow around them is code.
* `setuptools.discovery.find_package_path` (third-party, pure path
  arithmetic) is modelled directly, with paths kept relative to the project
  root so that `Path(...).relative_to(root)` is the identity.
-/

namespace Pyproject2uPyPackage

/-- Python exception outcomes the module can produce. -/
inductive PyErr where
  /-- TypeError, e.g. indexing a `str` with a `str` key. -/
  | typeError : PyErr
  /-- KeyError with the missing key. -/
  | keyError : String → PyErr
  /-- SystemExit raised with a message. -/
  | systemExit : String → PyErr
  /-- the typed domain error `Setup2uPyPackageError`. -/
  | setupError : String → PyErr
  /-- json.JSONDecodeError from `json.load`. -/
  | jsonDecodeError : PyErr
  /-- failure inside dynamic module loading / getattr. -/
  | attrError : PyErr
  deriving Repr, DecidableEq

/-- The `[tool.setuptools.dynamic]` `version` table: its optional `attr` key. -/
structure DynVersionTbl where
  attr : Option String
  deriving Repr, DecidableEq

/-- The `[tool.setuptools.packages.find]` table. -/
structure FindTbl where
  whereDirs : Option (List String)
  incl : Option (List String)
  excl : Option (List String)
  deriving Repr, DecidableEq

/-- Value of `tool.setuptools.packages`: an explicit list, a table possibly
holding `find`, or absent. -/
inductive PackagesVal where
  | plist : List String → PackagesVal
  | ptable : Option FindTbl → PackagesVal
  | pabsent : PackagesVal
  deriving Repr, DecidableEq

/-- The `[project.urls]` table: optional `Source` key, names of other keys. -/
structure UrlsTbl where
  source : Option String
  extra : List String
  deriving Repr, DecidableEq

/-- The `[project]` table: the keys the code reads, plus the names of any
other keys present (only their presence matters, for truthiness). -/
structure ProjTbl where
  dependencies : Option (List String)
  urls : Option UrlsTbl
  extra : List String
  deriving Repr, DecidableEq

/-- The parsed `pyproject.toml` content at the paths the code reads. -/
structure PyProject where
  project : Option ProjTbl
  dynVersion : Option DynVersionTbl
  packages : PackagesVal
  packageDir : Option (List (String × String))
  deriving Repr, DecidableEq

/-- One `Pyproject2uPyPackage` instance together with its environment.
`packageFile` is the raw text of the `package.json` file when one was
supplied; `changelogFile`, when a changelog was supplied, carries the semver
string `changelog2version.ExtractVersion` extracts from it (external
collaborator modelled as an oracle); `loadAttr path attr` is the value a
dynamic module load plus `getattr` produces (`none` = it raises);
`findNS whereDir incl excl` is `setuptools.find_namespace_packages`. -/
structure Inst where
  setupData : PyProject
  packageFile : Option String
  changelogFile : Option String
  fs : List String
  loadAttr : String → String → Option String
  findNS : String → List String → List String → List String

/-- The derived manifest (`package_data`'s dict, keys urls/deps/version). -/
structure PkgData where
  urls : List (String × String)
  deps : List String
  version : String
  deriving Repr, DecidableEq

/-- A manifest dict with possibly-absent keys, as handled by `validate`
(after `dict(...)` copies and `.pop` on ignored keys). -/
structure MDict where
  urls : Option (List (String × String))
  deps : Option (List String)
  version : Option String
  deriving Repr, DecidableEq

/-- View of a freshly derived manifest as a dict with all three keys. -/
def toMDict (d : PkgData) : MDict :=
  { urls := some d.urls, deps := some d.deps, version := some d.version }

/-- Prefix test on char lists (first argument is the candidate prefix). -/
def startsWithChars : List Char → List Char → Bool
  | [], _ => true
  | _ :: _, [] => false
  | a :: as, b :: bs => a == b && startsWithChars as bs

/-- Helper for substring containment on char lists. -/
def containsChars (pat : List Char) : List Char → Bool
  | [] => startsWithChars pat []
  | c :: rest => startsWithChars pat (c :: rest) || containsChars pat rest

/-- Python's `pat in s` substring test. -/
def strContainsSub (s pat : String) : Bool :=
  containsChars pat.data s.data

/-- Python's `s.startswith(pre)`. -/
def strStartsWith (s pre : String) : Bool :=
  startsWithChars pre.data s.data

/-- Python's `s.endswith(suf)`. -/
def strEndsWith (s suf : String) : Bool :=
  startsWithChars suf.data.reverse s.data.reverse

/-- Split a char list at every occurrence of a separator character
(Python `str.split(sep)` for a one-character separator; the result is
always nonempty). -/
def splitOnChar (sep : Char) : List Char → List (List Char)
  | [] => [[]]
  | c :: rest =>
    match splitOnChar sep rest with
    | [] => [[c]]
    | g :: gs => if c == sep then [] :: g :: gs else (c :: g) :: gs

/-- Python `s.split(sep)` for a one-character separator, on strings. -/
def strSplit (sep : Char) (s : String) : List String :=
  (splitOnChar sep s.data).map (fun cs => String.mk cs)

/-- Python `sep.join(parts)`. -/
def joinWith (sep : String) : List String → String
  | [] => ""
  | [x] => x
  | x :: y :: xs => x ++ sep ++ joinWith sep (y :: xs)

/-- One fuelled pass of Python `str.replace` (all non-overlapping
occurrences, left to right); fuel at least the list length suffices. -/
def replaceChars (old new : List Char) : Nat → List Char → List Char
  | _, [] => []
  | 0, l => l
  | fuel + 1, c :: rest =>
    if startsWithChars old (c :: rest) && !old.isEmpty then
      new ++ replaceChars old new fuel ((c :: rest).drop old.length)
    else
      c :: replaceChars old new fuel rest

/-- Python `s.replace(old, new)` for nonempty `old`. -/
def strReplace (s old new : String) : String :=
  String.mk (replaceChars old.data new.data s.data.length s.data)

/-- Python dict lookup on an association list (keys unique). -/
def lookupAssoc (d : List (String × String)) (k : String) : Option String :=
  match d with
  | [] => none
  | (a, b) :: rest => if a == k then some b else lookupAssoc rest k

/-- Python dict insertion `d[k] = v`: update in place if the key exists,
else append (insertion order preserved). -/
def dinsert (d : List (String × String)) (k v : String) : List (String × String) :=
  if d.any (fun p => p.1 == k) then
    d.map (fun p => if p.1 == k then (k, v) else p)
  else d ++ [(k, v)]

/-- Join path components with "/" dropping empty and "." components, as
`os.path.join` under the project root followed by `Path.relative_to(root)`
normalisation does. -/
def joinParts (parts : List String) : String :=
  joinWith "/" (parts.filter (fun p => p ≠ "" && p ≠ "."))

/-- Loop of `find_package_path`: try `".".join(parts[:i])` for i from
`parts.length` down to 1, then fall back to the `""` entry. -/
def fppGo (parts : List String) (package_dir : List (String × String)) : Nat → String
  | 0 => joinParts (((lookupAssoc package_dir "").getD ".") :: parts)
  | i + 1 =>
    match lookupAssoc package_dir (joinWith "." (parts.take (i + 1))) with
    | some parent => joinParts (parent :: parts.drop (i + 1))
    | none => fppGo parts package_dir i

/-- Modelled from `setuptools.discovery.find_package_path` (third-party
helper the code calls): resolve a dotted package name through the
`package-dir` mapping to a path relative to the project root. -/
def find_package_path (name : String) (package_dir : List (String × String)) : String :=
  fppGo (strSplit '.' name) package_dir (strSplit '.' name).length

/-- The `find` table of a non-list `packages` value (`.get("find", {})`). -/
def find_of_packages : PackagesVal → FindTbl
  | .ptable (some f) => f
  | _ => { whereDirs := none, incl := none, excl := none }

/-- The auto-discovery branch of `_find_packages` (packages not a list). -/
def find_branch (inst : Inst) (package_name : Option String) (find : FindTbl) :
    List (String × String) :=
  (find.whereDirs.getD ["."]).foldl (fun d search_dir =>
    let packages := match package_name with
      | some n => [n]
      | none => inst.findNS search_dir (find.incl.getD ["*"]) (find.excl.getD [])
    packages.foldl (fun d p => dinsert d p (find_package_path p [("", search_dir)])) d) []

/-- The method `_find_packages`: package name ↦ package path (a Python dict,
insertion ordered). -/
def _find_packages (inst : Inst) (package_name : Option String) : List (String × String) :=
  match inst.setupData.packages with
  | .plist pkgs =>
    let packages := match package_name with
      | none => pkgs
      | some n => [n]
    let package_dir := inst.setupData.packageDir.getD [("", ".")]
    packages.foldl (fun d p => dinsert d p (find_package_path p package_dir)) []
  | .ptable f => find_branch inst package_name (find_of_packages (.ptable f))
  | .pabsent => find_branch inst package_name (find_of_packages .pabsent)

/-- Does file `f` match the glob pattern `dir/*.py` (direct child of `dir`
with `.py` suffix)?  Unlike the `glob` module, `pathlib.Path.glob`'s `*`
does match a leading dot, so hidden files are included. -/
def isDirectPyChild (dir f : String) : Bool :=
  if dir == "." || dir == "" then
    !(f.data.contains '/') && strEndsWith f ".py"
  else
    strStartsWith f (dir ++ "/") &&
      (let base : String := String.mk (f.data.drop (dir.length + 1))
       !(base.data.contains '/') && strEndsWith base ".py")

/-- The `root.glob(dir ++ "/*.py")` enumeration filtered by `is_file`:
`fs` holds exactly the existing files, in enumeration order. -/
def globPy (fs : List String) (dir : String) : List String :=
  fs.filter (fun f => isDirectPyChild dir f)

/-- The property `package_files`: all `*.py` files directly inside each
discovered package directory, relative to the project root. -/
def package_files (inst : Inst) : List String :=
  (_find_packages inst none).foldl (fun acc info => acc ++ globPy inst.fs info.2) []

/-- The property `package_version`: resolve the version from
`tool.setuptools.dynamic.version`.  When that key is absent, the `.get`
chain yields the default `str` `"-1.-1.-1"` and the subsequent
`version["attr"]` raises `TypeError` (a `str` indexed with a `str`). -/
def package_version (inst : Inst) : Except PyErr String :=
  match inst.setupData.dynVersion with
  | none => .error .typeError
  | some tbl =>
    match tbl.attr with
    | none => .error (.keyError "attr")
    | some a =>
      if a == "" then
        -- falsy attr: log a warning and return the sentinel
        .ok "-1.-1.-1"
      else
        let version_module := joinWith "." ((strSplit '.' a).dropLast)
        let version_attr := (strSplit '.' a).getLastD ""
        match lookupAssoc (_find_packages inst (some version_module)) version_module with
        | none => .error (.keyError version_module)
        | some package_path =>
          match inst.loadAttr (package_path ++ ".py") version_attr with
          | some v => .ok v
          | none => .error .attrError

/-- The property `package_changelog_version`: the semver extracted from the
changelog when one was supplied, else a warning and the sentinel. -/
def package_changelog_version (inst : Inst) : String :=
  match inst.changelogFile with
  | some semver => semver
  | none => "-1.-1.-1"

/-- The property `package_deps`: `project.dependencies`, or `[]` (with a
warning) when absent or empty. -/
def package_deps (inst : Inst) : List String :=
  let dependencies := match inst.setupData.project with
    | some p => p.dependencies
    | none => none
  match dependencies with
  | some ds => if ds.isEmpty then [] else ds
  | none => []

/-- Truthiness of the `[project]` table (non-empty dict). -/
def projTruthy (p : ProjTbl) : Bool :=
  p.dependencies.isSome || p.urls.isSome || !p.extra.isEmpty

/-- The property `package_url`: `project.urls.Source`.  A missing or empty
`[project]` table raises `SystemExit("Project URL is mandatory")`; a present
but `urls`- or `Source`-less table raises `KeyError` from the subscripts. -/
def package_url (inst : Inst) : Except PyErr String :=
  match inst.setupData.project with
  | some p =>
    if projTruthy p then
      match p.urls with
      | none => .error (.keyError "urls")
      | some u =>
        match u.source with
        | none => .error (.keyError "Source")
        | some s => .ok s
    else .error (.systemExit "Project URL is mandatory")
  | none => .error (.systemExit "Project URL is mandatory")

/-- Models `str(Path(url) / file)`: join with "/", dropping empty and "."
components (a leading "/" on `url` is kept). -/
def pathJoin (url file : String) : String :=
  let lead := if strStartsWith url "/" then "/" else ""
  lead ++ joinParts (strSplit '/' url ++ strSplit '/' file)

/-- The method `_create_url_elements`. -/
def _create_url_elements (package_files : List String) (url : String) :
    List (String × String) :=
  package_files.map (fun file => (file, pathJoin url file))

/-- The property `data_files` ("Not implemented yet"). -/
def data_files (_inst : Inst) : List String := []

/-- The property `package_data`: the derived manifest.  The source
evaluates files, version, deps, data files and url in that order; all are
pure here, and the first raising step (version, then url) propagates. -/
def package_data (inst : Inst) : Except PyErr PkgData :=
  match (if inst.changelogFile.isSome then
      Except.ok (package_changelog_version inst)
    else package_version inst) with
  | .error e => .error e
  | .ok version =>
    match package_url inst with
    | .error e => .error e
    | .ok url =>
      .ok { urls := _create_url_elements (package_files inst)
                (strReplace url "https://github.com/" "github:") ++
              _create_url_elements (data_files inst)
                (strReplace url "https://github.com/" "github:"),
            deps := package_deps inst,
            version := version }

/-- The method `_exclude_package_files` at its default `excludes`
(`["boot.py", "main.py"]`), as `validate` invokes it. -/
def _exclude_package_files (package_files : List (String × String)) :
    List (String × String) :=
  let excludes := ["boot.py", "main.py"]
  package_files.filter (fun ele => !(excludes.any (fun i => strContainsSub ele.1 i)))

/-- The order Python `list.sort` uses on two-element string lists
(lexicographic by code point).  It is total, transitive and antisymmetric,
so the sorted permutation a correct sort returns is unique and
`insertionSort` models `.sort()` exactly. -/
def urlLe (a b : String × String) : Prop :=
  a.1 < b.1 ∨ (a.1 = b.1 ∧ a.2 ≤ b.2)

instance urlLeDecidable : DecidableRel urlLe :=
  fun _ _ => inferInstanceAs (Decidable (_ ∨ _))

/-- In-place `.sort()` of a urls list. -/
def sortUrls (l : List (String × String)) : List (String × String) :=
  List.insertionSort urlLe l

instance urlLeTotal : IsTotal (String × String) urlLe :=
  ⟨fun a b => by
    rcases lt_trichotomy a.1 b.1 with h | h | h
    · exact Or.inl (Or.inl h)
    · rcases le_total a.2 b.2 with h2 | h2
      · exact Or.inl (Or.inr ⟨h, h2⟩)
      · exact Or.inr (Or.inr ⟨h.symm, h2⟩)
    · exact Or.inr (Or.inl h)⟩

instance urlLeTrans : IsTrans (String × String) urlLe :=
  ⟨fun a b c hab hbc => by
    rcases hab with h1 | ⟨e1, l1⟩ <;> rcases hbc with h2 | ⟨e2, l2⟩
    · exact Or.inl (h1.trans h2)
    · exact Or.inl (by rw [← e2]; exact h1)
    · exact Or.inl (by rw [e1]; exact h2)
    · exact Or.inr ⟨e1.trans e2, l1.trans l2⟩⟩

instance urlLeAntisymm : IsAntisymm (String × String) urlLe :=
  ⟨fun a b hab hba => by
    rcases hab with h1 | ⟨e1, l1⟩ <;> rcases hba with h2 | ⟨e2, l2⟩
    · exact absurd h2 (lt_asymm h1)
    · exact absurd (by rw [e2] at h1; exact h1 : a.1 < a.1) (lt_irrefl _)
    · exact absurd (by rw [e1] at h2; exact h2 : b.1 < b.1) (lt_irrefl _)
    · exact Prod.ext e1 (le_antisymm l1 l2)⟩

/-- Python `==` on two manifest dicts (equal key sets with equal values). -/
def mdictEq (a b : MDict) : Bool :=
  decide (a.urls = b.urls) && decide (a.deps = b.deps) && decide (a.version = b.version)

/-- Core of `validate` on the two manifest dicts (lines 358-381): pop the
ignored keys, optionally drop boot/main entries (setting the `urls` key),
sort both `urls` values in place, then compare the dicts. -/
def validate_core (pjIn pdIn : MDict)
    (ignore_version ignore_deps ignore_boot_main : Bool) : Bool :=
  let pj := if ignore_version then { pjIn with version := none } else pjIn
  let pd := if ignore_version then { pdIn with version := none } else pdIn
  let pj := if ignore_deps then { pj with deps := none } else pj
  let pd := if ignore_deps then { pd with deps := none } else pd
  let pj := if ignore_boot_main then
      { pj with urls := some (_exclude_package_files (pj.urls.getD [])) }
    else pj
  let pd := if ignore_boot_main then
      { pd with urls := some (_exclude_package_files (pd.urls.getD [])) }
    else pd
  let pj := { pj with urls := pj.urls.map sortUrls }
  let pd := { pd with urls := pd.urls.map sortUrls }
  mdictEq pj pd

/-! JSON serialisation.  `create` writes `json.dumps(self.package_data)`
(with `indent=4` when pretty) and `package_json_data` reads the file back
with `json.load`.  Both are modelled character-exactly for the manifest
shape (an object whose keys are `urls` / `deps` / `version`, with string,
string-list and string-pair-list values): the dumper reproduces
`json.dumps` for such data including its default `ensure_ascii` escaping,
and the parser accepts the grammar `json.load` accepts on such documents
(whitespace-insensitive, escape sequences, surrogate pairs; lone
surrogates, numbers and other JSON value kinds are out of this model). -/

/-- Opening curly brace. -/
def lbrace : Char := Char.ofNat 123

/-- Closing curly brace. -/
def rbrace : Char := Char.ofNat 125

/-- Lowercase hex digit for a value below 16 (as `%04x` formatting). -/
def hexDigChar (n : Nat) : Char :=
  if n < 10 then Char.ofNat (48 + n) else Char.ofNat (87 + n)

/-- Four lowercase hex digits of a value below 0x10000. -/
def hex4enc (n : Nat) : List Char :=
  [hexDigChar (n / 4096 % 16), hexDigChar (n / 256 % 16),
   hexDigChar (n / 16 % 16), hexDigChar (n % 16)]

/-- Hex digit value (both cases accepted, as `json.load` does). -/
def hexVal (c : Char) : Option Nat :=
  if '0' ≤ c ∧ c ≤ '9' then some (c.toNat - 48)
  else if 'a' ≤ c ∧ c ≤ 'f' then some (c.toNat - 87)
  else if 'A' ≤ c ∧ c ≤ 'F' then some (c.toNat - 55)
  else none

/-- Value of a four-hex-digit escape. -/
def hex4 (a b c d : Char) : Option Nat := do
  let x1 ← hexVal a
  let x2 ← hexVal b
  let x3 ← hexVal c
  let x4 ← hexVal d
  return ((x1 * 16 + x2) * 16 + x3) * 16 + x4

/-- Escape of one character under `json.dumps` defaults (`ensure_ascii`):
shorthand escapes, printable ASCII literal, `\uXXXX` otherwise with
surrogate pairs above the BMP. -/
def escapeChar (c : Char) : List Char :=
  if c == '"' then ['\\', '"']
  else if c == '\\' then ['\\', '\\']
  else if c == '\n' then ['\\', 'n']
  else if c == '\r' then ['\\', 'r']
  else if c == '\t' then ['\\', 't']
  else if c.toNat == 8 then ['\\', 'b']
  else if c.toNat == 12 then ['\\', 'f']
  else if c.toNat < 32 then '\\' :: 'u' :: hex4enc c.toNat
  else if c.toNat ≤ 126 then [c]
  else if c.toNat < 65536 then '\\' :: 'u' :: hex4enc c.toNat
  else
    ('\\' :: 'u' :: hex4enc (55296 + (c.toNat - 65536) / 1024)) ++
      ('\\' :: 'u' :: hex4enc (56320 + (c.toNat - 65536) % 1024))

/-- Character denoted by a shorthand escape `\c`. -/
def escCharOf (c : Char) : Option Char :=
  if c == 'n' then some '\n'
  else if c == 't' then some '\t'
  else if c == 'r' then some '\r'
  else if c == 'b' then some (Char.ofNat 8)
  else if c == 'f' then some (Char.ofNat 12)
  else if c == '"' then some '"'
  else if c == '\\' then some '\\'
  else if c == '/' then some '/'
  else none

/-- Is this a JSON whitespace character? -/
def isWsChar (c : Char) : Bool :=
  c == ' ' || c == '\t' || c == '\n' || c == '\r'

/-- Skip leading JSON whitespace. -/
def skipWs : List Char → List Char
  | [] => []
  | c :: rest => if isWsChar c then skipWs rest else c :: rest

/-- Parse a JSON string body (after the opening quote) up to the closing
quote, decoding escapes; surrogate pairs recombine, raw control characters
and (here, unlike lenient CPython) lone surrogates are rejected.  The fuel
only bounds recursion depth: one unit of fuel is spent per decoded
character, so any fuel above the input length is enough. -/
def parseStrBody : Nat → List Char → Option (List Char × List Char)
  | 0, _ => none
  | _ + 1, [] => none
  | fuel + 1, c :: rest =>
    if c == '"' then some ([], rest)
    else if c == '\\' then
      match rest with
      | [] => none
      | e :: rest2 =>
        if e == 'u' then
          match rest2 with
          | h1 :: h2 :: h3 :: h4 :: rest3 =>
            (match hex4 h1 h2 h3 h4 with
             | none => none
             | some n =>
               if 55296 ≤ n ∧ n ≤ 56319 then
                 match rest3 with
                 | b1 :: b2 :: g1 :: g2 :: g3 :: g4 :: rest4 =>
                   if b1 == '\\' && b2 == 'u' then
                     match hex4 g1 g2 g3 g4 with
                     | none => none
                     | some m =>
                       if 56320 ≤ m ∧ m ≤ 57343 then
                         match parseStrBody fuel rest4 with
                         | some (cs, r) =>
                           some (Char.ofNat (65536 + (n - 55296) * 1024 + (m - 56320)) :: cs, r)
                         | none => none
                       else none
                   else none
                 | _ => none
               else if 56320 ≤ n ∧ n ≤ 57343 then none
               else
                 match parseStrBody fuel rest3 with
                 | some (cs, r) => some (Char.ofNat n :: cs, r)
                 | none => none)
          | _ => none
        else
          match escCharOf e with
          | none => none
          | some c2 =>
            match parseStrBody fuel rest2 with
            | some (cs, r) => some (c2 :: cs, r)
            | none => none
    else if c.toNat < 32 then none
    else
      match parseStrBody fuel rest with
      | some (cs, r) => some (c :: cs, r)
      | none => none

/-- Is every character JSON whitespace? -/
def wsOnly (l : List Char) : Bool := l.all isWsChar

/-- Skip whitespace and consume one expected character. -/
def expectChar (c : Char) (l : List Char) : Option (List Char) :=
  match skipWs l with
  | d :: rest => if d == c then some rest else none
  | [] => none

/-- Parse a JSON string token (leading whitespace allowed). -/
def parseStr (fuel : Nat) (l : List Char) : Option (String × List Char) :=
  match expectChar '"' l with
  | some rest =>
    (match parseStrBody fuel rest with
     | some (cs, r) => some (String.mk cs, r)
     | none => none)
  | none => none

/-- Parse a two-element string array (a urls entry). -/
def parsePair (fuel : Nat) (l : List Char) : Option ((String × String) × List Char) :=
  match expectChar '[' l with
  | none => none
  | some rest =>
    match parseStr fuel rest with
    | none => none
    | some (a, r1) =>
      match expectChar ',' r1 with
      | none => none
      | some r2 =>
        match parseStr fuel r2 with
        | none => none
        | some (b, r3) =>
          match expectChar ']' r3 with
          | none => none
          | some r4 => some ((a, b), r4)

/-- Parse the comma-separated items of a nonempty string array, consuming
the closing bracket. -/
def parseStrItems : Nat → List Char → Option (List String × List Char)
  | 0, _ => none
  | fuel + 1, l =>
    match parseStr (fuel + 1) l with
    | none => none
    | some (s, r1) =>
      match skipWs r1 with
      | c :: r2 =>
        if c == ',' then
          match parseStrItems fuel r2 with
          | some (ss, r) => some (s :: ss, r)
          | none => none
        else if c == ']' then some ([s], r2)
        else none
      | [] => none

/-- Parse a string array. -/
def parseStrList (fuel : Nat) (l : List Char) : Option (List String × List Char) :=
  match expectChar '[' l with
  | none => none
  | some rest =>
    match skipWs rest with
    | c :: _ =>
      if c == ']' then
        (match expectChar ']' rest with
         | some r2 => some ([], r2)
         | none => none)
      else parseStrItems fuel rest
    | [] => none

/-- Parse the comma-separated items of a nonempty array of string pairs,
consuming the closing bracket. -/
def parsePairItems : Nat → List Char → Option (List (String × String) × List Char)
  | 0, _ => none
  | fuel + 1, l =>
    match parsePair (fuel + 1) l with
    | none => none
    | some (p, r1) =>
      match skipWs r1 with
      | c :: r2 =>
        if c == ',' then
          match parsePairItems fuel r2 with
          | some (ps, r) => some (p :: ps, r)
          | none => none
        else if c == ']' then some ([p], r2)
        else none
      | [] => none

/-- Parse an array of string pairs. -/
def parsePairList (fuel : Nat) (l : List Char) :
    Option (List (String × String) × List Char) :=
  match expectChar '[' l with
  | none => none
  | some rest =>
    match skipWs rest with
    | c :: _ =>
      if c == ']' then
        (match expectChar ']' rest with
         | some r2 => some ([], r2)
         | none => none)
      else parsePairItems fuel rest
    | [] => none

/-- Parse the value of a manifest key and store it (later duplicate keys
overwrite, as in a Python dict). -/
def parseEntryValue (d : MDict) (fuel : Nat) (k : String) (l : List Char) :
    Option (MDict × List Char) :=
  if k == "urls" then
    match parsePairList fuel l with
    | some (v, r) => some ({ d with urls := some v }, r)
    | none => none
  else if k == "deps" then
    match parseStrList fuel l with
    | some (v, r) => some ({ d with deps := some v }, r)
    | none => none
  else if k == "version" then
    match parseStr fuel l with
    | some (v, r) => some ({ d with version := some v }, r)
    | none => none
  else none

/-- Parse the key-value entries of a nonempty manifest object, consuming
the closing brace. -/
def parseEntries : Nat → MDict → List Char → Option (MDict × List Char)
  | 0, _, _ => none
  | fuel + 1, d, l =>
    match parseStr (fuel + 1) l with
    | none => none
    | some (k, r1) =>
      match expectChar ':' r1 with
      | none => none
      | some r2 =>
        match parseEntryValue d fuel k r2 with
        | none => none
        | some (d2, r3) =>
          match skipWs r3 with
          | c :: r4 =>
            if c == ',' then parseEntries fuel d2 r4
            else if c == rbrace then some (d2, r4)
            else none
          | [] => none

/-- The empty manifest dict. -/
def emptyMDict : MDict := { urls := none, deps := none, version := none }

/-- Models `json.load` on a manifest-shaped document: one object with
`urls` / `deps` / `version` keys and nothing after it.  The fuel
`s.length + 1` cannot run out, since every unit of fuel spent consumes at
least one input character. -/
def parseManifest (s : String) : Option MDict :=
  let fuel := s.length + 1
  match expectChar lbrace s.data with
  | none => none
  | some rest =>
    match skipWs rest with
    | c2 :: _ =>
      if c2 == rbrace then
        (match expectChar rbrace rest with
         | some r2 => if (skipWs r2).isEmpty then some emptyMDict else none
         | none => none)
      else
        match parseEntries fuel emptyMDict rest with
        | some (d, r) => if (skipWs r).isEmpty then some d else none
        | none => none
    | [] => none

/-- Newline followed by `n` spaces (the indented dumper's separator tail). -/
def indentChars (n : Nat) : List Char := '\n' :: List.replicate n ' '

/-- Interleave a separator between dumped items. -/
def joinSep (sep : List Char) : List (List Char) → List Char
  | [] => []
  | [x] => x
  | x :: y :: xs => x ++ sep ++ joinSep sep (y :: xs)

/-- Dump of one JSON string under `json.dumps` defaults. -/
def dumpStr (s : String) : List Char :=
  '"' :: (s.data.flatMap escapeChar ++ ['"'])

/-- Dump of a JSON array of pre-dumped items: inline `[]` when empty, the
four-space-indented layout when `pretty`, `", "` separators otherwise. -/
def dumpArr (pretty : Bool) (level : Nat) (items : List (List Char)) : List Char :=
  match items with
  | [] => ['[', ']']
  | _ =>
    if pretty then
      ('[' :: (indentChars (4 * (level + 1)) ++
        joinSep (',' :: indentChars (4 * (level + 1))) items ++
        indentChars (4 * level))) ++ [']']
    else
      ('[' :: joinSep [',', ' '] items) ++ [']']

/-- Dump of one `"key": value` object entry. -/
def dumpEntry (k : String) (v : List Char) : List Char :=
  dumpStr k ++ (':' :: ' ' :: v)

/-- Dump of a JSON object from pre-dumped entries (top level). -/
def dumpObj (pretty : Bool) (entries : List (List Char)) : List Char :=
  match entries with
  | [] => [lbrace, rbrace]
  | _ =>
    if pretty then
      (lbrace :: (indentChars 4 ++ joinSep (',' :: indentChars 4) entries ++
        indentChars 0)) ++ [rbrace]
    else
      (lbrace :: joinSep [',', ' '] entries) ++ [rbrace]

/-- Models `json.dumps(package_data)` with `indent=4` (pretty) or compact
default separators, keys in the dict's insertion order urls, deps,
version. -/
def dumpsManifest (pretty : Bool) (d : PkgData) : String :=
  String.mk (dumpObj pretty
    [dumpEntry "urls" (dumpArr pretty 1
        (d.urls.map (fun p => dumpArr pretty 2 [dumpStr p.1, dumpStr p.2]))),
     dumpEntry "deps" (dumpArr pretty 1 (d.deps.map dumpStr)),
     dumpEntry "version" (dumpStr d.version)])

/-- The property `package_json_data`: parse the supplied `package.json`,
or raise the typed domain error when none was supplied. -/
def package_json_data (inst : Inst) : Except PyErr MDict :=
  match inst.packageFile with
  | some content =>
    match parseManifest content with
    | some d => .ok d
    | none => .error .jsonDecodeError
  | none => .error (.setupError "No package.json data specified")

/-- The method `validate`: load the target manifest (first), derive the
fresh data, then run the comparison core. -/
def validate (inst : Inst)
    (ignore_version ignore_deps ignore_boot_main : Bool) : Except PyErr Bool :=
  match package_json_data inst with
  | .error e => .error e
  | .ok pj =>
    match package_data inst with
    | .error e => .error e
    | .ok pd =>
      .ok (validate_core pj (toMDict pd) ignore_version ignore_deps ignore_boot_main)

/-- The property `validation_diff`: the two arguments handed to `DeepDiff`
(an external collaborator), in Python's left-to-right evaluation order:
`package_data` first, `package_json_data` second. -/
def validation_diff (inst : Inst) : Except PyErr (PkgData × MDict) :=
  match package_data inst with
  | .error e => .error e
  | .ok pd =>
    match package_json_data inst with
    | .error e => .error e
    | .ok pj => .ok (pd, pj)

/-- The method `create`, reduced to the file content it writes. -/
def create_content (inst : Inst) (pretty : Bool) : Except PyErr String :=
  (package_data inst).map (fun d => dumpsManifest pretty d)

/-- Does the configuration declare `project.urls.Source`? -/
def hasSource (cfg : PyProject) : Bool :=
  match cfg.project with
  | some p =>
    match p.urls with
    | some u => u.source.isSome
    | none => false
  | none => false

/-- Is the `[project]` table absent or empty (falsy in the `if`)? -/
def projFalsy (cfg : PyProject) : Bool :=
  match cfg.project with
  | some p => !projTruthy p
  | none => true

/-- Fuel sufficient to parse a dumped string list: one unit per item plus
its characters. -/
def strsFuel (ss : List String) : Nat :=
  ss.foldr (fun s acc => s.data.length + 1 + acc) 0

/-- Fuel sufficient to parse a dumped list of string pairs. -/
def pairsFuel (ps : List (String × String)) : Nat :=
  ps.foldr (fun p acc => p.1.data.length + p.2.data.length + 2 + acc) 0

/-! Concrete configurations used to evaluate the code at specific inputs. -/

/-- A configuration with no version source at all: no changelog supplied and
no `tool.setuptools.dynamic.version` declared. -/
def instC1 : Inst :=
  { setupData :=
      { project := none, dynVersion := none, packages := .pabsent,
        packageDir := none },
    packageFile := none, changelogFile := none, fs := [],
    loadAttr := fun _ _ => none, findNS := fun _ _ _ => [] }

/-- A configuration whose `[project]` table is present (non-empty: it
declares dependencies) but has no `urls` table at all. -/
def instC2 : Inst :=
  { setupData :=
      { project := some { dependencies := some ["urequests"], urls := none,
                          extra := [] },
        dynVersion := none, packages := .plist [], packageDir := none },
    packageFile := none, changelogFile := none, fs := [],
    loadAttr := fun _ _ => none, findNS := fun _ _ _ => [] }

/-- The spec's worked example: dependencies `["urequests"]`, Source URL
`https://github.com/acme/widget`, one explicit package `widget` whose
directory holds `__init__.py` and `core.py`, no version source. -/
def instC3 : Inst :=
  { setupData :=
      { project := some
          { dependencies := some ["urequests"],
            urls := some { source := some "https://github.com/acme/widget",
                           extra := [] },
            extra := [] },
        dynVersion := none,
        packages := .plist ["widget"],
        packageDir := none },
    packageFile := none,
    changelogFile := none,
    fs := ["widget/__init__.py", "widget/core.py"],
    loadAttr := fun _ _ => none,
    findNS := fun _ _ _ => [] }

/-- The worked example with a changelog supplied whose extracted version is
the sentinel, so that derivation succeeds. -/
def instC3v : Inst := { instC3 with changelogFile := some "-1.-1.-1" }

/-- The manifest the worked example is expected to derive. -/
def mfC3 : PkgData :=
  { urls := [("widget/__init__.py", "github:acme/widget/widget/__init__.py"),
             ("widget/core.py", "github:acme/widget/widget/core.py")],
    deps := ["urequests"],
    version := "-1.-1.-1" }

/-- The worked example with a dynamic version attribute
`widget.version.__version__` resolving to `9.9.9` and no changelog. -/
def instC10 : Inst :=
  { instC3 with
      setupData := { instC3.setupData with
        dynVersion := some { attr := some "widget.version.__version__" } },
      loadAttr := fun p a =>
        if p == "widget/version.py" && a == "__version__" then some "9.9.9"
        else none }

/-- The manifest `instC10` derives (version from the dynamic attribute). -/
def mfC10 : PkgData := { mfC3 with version := "9.9.9" }

/-!  Theorems about the claims. -/

/-- C1: the claim says that with no version source configured (no changelog
and no `tool.setuptools.dynamic.version`), `package_version` logs a warning
and returns the sentinel `"-1.-1.-1"`.  The code instead crashes: the `.get`
chain yields the default string `"-1.-1.-1"`, and `version["attr"]` raises
`TypeError`, so both `package_version` and `package_data` raise rather than
returning the sentinel. -/
theorem C1_no_version_source_raises_typeerror :
    package_version instC1 = .error .typeError ∧
    package_data instC1 = .error .typeError ∧
    package_version instC1 ≠ .ok "-1.-1.-1" := by
  refine ⟨rfl, rfl, ?_⟩
  simp [package_version, instC1]

/-- C3: on the spec's worked example (no version source configured),
derivation does not produce the expected manifest: it raises the C1
`TypeError` while resolving the version.  Every other derived component
matches the claim: files, deps, rewritten URL, url pairs; and the same
configuration with the version step yielding the sentinel (changelog
supplying `"-1.-1.-1"`) derives exactly the claimed manifest. -/
theorem C3_example_derivation :
    package_data instC3 = .error .typeError ∧
    package_files instC3 = ["widget/__init__.py", "widget/core.py"] ∧
    package_deps instC3 = ["urequests"] ∧
    (package_url instC3).map
      (fun u => strReplace u "https://github.com/" "github:") = .ok "github:acme/widget" ∧
    _create_url_elements (package_files instC3) "github:acme/widget" = mfC3.urls ∧
    package_data instC3v = .ok mfC3 := by
  exact ⟨rfl, rfl, rfl, rfl, rfl, rfl⟩

/-- C2 counterexample: a configuration with a present, non-empty `[project]`
table that declares no `urls` at all.  The claim says deriving aborts with
the process-terminating mandatory-field error; the code instead raises
`KeyError("urls")` from the subscript. -/
theorem C2_counterexample :
    package_url instC2 = .error (.keyError "urls") ∧
    package_url instC2 ≠ .error (.systemExit "Project URL is mandatory") := by
  refine ⟨rfl, ?_⟩
  simp [package_url, instC2, projTruthy]

/-- C2 (amended): whenever no `project.urls.Source` is declared, reading the
URL raises (never a soft default) and no manifest is produced; the
process-terminating `SystemExit("Project URL is mandatory")` specifically is
raised when the whole `[project]` table is absent or empty, while a present
table lacking `urls`/`Source` aborts with a `KeyError` instead. -/
theorem C2_no_source_aborts (inst : Inst)
    (h : hasSource inst.setupData = false) :
    (∀ s, package_url inst ≠ .ok s) ∧
    (∀ d, package_data inst ≠ .ok d) ∧
    (projFalsy inst.setupData = true →
      package_url inst = .error (.systemExit "Project URL is mandatory")) := by
  obtain ⟨⟨proj, dv, pkgs, pdir⟩, pf, cl, fs, la, fns⟩ := inst
  have hurl : ∀ s,
      package_url ⟨⟨proj, dv, pkgs, pdir⟩, pf, cl, fs, la, fns⟩ ≠ Except.ok s := by
    intro s hs
    cases proj with
    | none => exact Except.noConfusion hs
    | some p =>
      obtain ⟨pdeps, purls, pextra⟩ := p
      cases purls with
      | none =>
        unfold package_url at hs
        dsimp only at hs
        split at hs <;> exact Except.noConfusion hs
      | some u =>
        obtain ⟨usrc, uextra⟩ := u
        cases usrc with
        | none =>
          unfold package_url at hs
          dsimp only at hs
          split at hs <;> exact Except.noConfusion hs
        | some v => simp [hasSource] at h
  refine ⟨hurl, ?_, ?_⟩
  · intro d hd
    unfold package_data at hd
    split at hd
    · exact Except.noConfusion hd
    · split at hd
      next e heq => exact Except.noConfusion hd
      next u heq => exact hurl u heq
  · intro hf
    cases proj with
    | none => rfl
    | some p =>
      obtain ⟨pdeps, purls, pextra⟩ := p
      simp only [projFalsy] at hf
      have hft : projTruthy ⟨pdeps, purls, pextra⟩ = false := by
        revert hf
        cases projTruthy ⟨pdeps, purls, pextra⟩ <;> simp
      unfold package_url
      dsimp only
      rw [hft]
      simp

/-- C2 witness: the amended theorem applied to the concrete `urls`-less
configuration. -/
theorem C2_no_source_aborts_witness :
    hasSource instC2.setupData = false ∧
    (∀ d, package_data instC2 ≠ .ok d) := by
  refine ⟨rfl, ?_⟩
  exact (C2_no_source_aborts instC2 rfl).2.1

/-- C4: with `ignore_boot_main` set, `validate` removes from both the target
manifest's urls and the derived manifest's urls exactly the entries whose
relative path contains `boot.py` or `main.py` as a substring (and no other
entry), before the comparison: filtering first and validating without the
flag gives the same verdict. -/
theorem C4_ignore_boot_main_exact :
    (∀ (l : List (String × String)) (e : String × String),
      e ∈ _exclude_package_files l ↔
        e ∈ l ∧ ¬(strContainsSub e.1 "boot.py" = true ∨
                   strContainsSub e.1 "main.py" = true)) ∧
    (∀ pj pd iv id, validate_core pj pd iv id true =
      validate_core
        { pj with urls := some (_exclude_package_files (pj.urls.getD [])) }
        { pd with urls := some (_exclude_package_files (pd.urls.getD [])) }
        iv id false) := by
  constructor
  · intro l e
    simp [_exclude_package_files, List.mem_filter, not_or]
  · intro pj pd iv id
    cases iv <;> cases id <;> rfl

/-- C7 counterexample: an instance with no target manifest whose derivation
also fails (no version source).  Requesting the diagnostic diff evaluates
`self.package_data` first (Python's left-to-right argument evaluation in
`DeepDiff(self.package_data, self.package_json_data)`), so the `TypeError`
from derivation preempts the typed domain error the claim promises. -/
theorem C7_counterexample :
    validation_diff instC1 = .error .typeError ∧
    validation_diff instC1 ≠ .error (.setupError "No package.json data specified") := by
  refine ⟨rfl, ?_⟩
  intro h
  rw [show validation_diff instC1 = .error .typeError from rfl] at h
  exact PyErr.noConfusion (Except.error.inj h)

/-- C7 (amended): with no target manifest file, `validate` always raises the
typed domain error `Setup2uPyPackageError("No package.json data specified")`
(it loads the target first); `validation_diff` raises it provided derivation
succeeds, since its `package_data` argument is evaluated first. -/
theorem C7_missing_manifest (inst : Inst) (h : inst.packageFile = none) :
    (∀ iv id ibm, validate inst iv id ibm =
        .error (.setupError "No package.json data specified")) ∧
    (∀ d, package_data inst = .ok d → validation_diff inst =
        .error (.setupError "No package.json data specified")) := by
  have hpj : package_json_data inst =
      .error (.setupError "No package.json data specified") := by
    unfold package_json_data
    rw [h]
  constructor
  · intro iv id ibm
    unfold validate
    rw [hpj]
  · intro d hd
    unfold validation_diff
    rw [hd, hpj]

/-- C7 witness: the amended theorem applied to the worked example with a
changelog (derivation succeeds) and no target manifest. -/
theorem C7_missing_manifest_witness :
    instC3v.packageFile = none ∧
    validate instC3v true false true =
      .error (.setupError "No package.json data specified") ∧
    validation_diff instC3v =
      .error (.setupError "No package.json data specified") :=
  ⟨rfl, (C7_missing_manifest instC3v rfl).1 true false true,
   (C7_missing_manifest instC3v rfl).2 mfC3 rfl⟩

/-- C9: when `tool.setuptools.packages` is an explicit list, `_find_packages`
resolves exactly that list through the `package-dir` mapping — the result
does not depend on the auto-discovery oracle or any `find` rules — and the
`find` auto-discovery branch runs only when the value is not a list (a table
or absent). -/
theorem C9_explicit_list_precedence
    (proj : Option ProjTbl) (dv : Option DynVersionTbl)
    (pdir : Option (List (String × String))) (pf cl : Option String)
    (fs : List String) (la : String → String → Option String)
    (fns : String → List String → List String → List String) :
    (∀ ps, _find_packages ⟨⟨proj, dv, .plist ps, pdir⟩, pf, cl, fs, la, fns⟩ none =
      ps.foldl (fun d p =>
        dinsert d p (find_package_path p (pdir.getD [("", ".")]))) []) ∧
    (∀ f, _find_packages ⟨⟨proj, dv, .ptable f, pdir⟩, pf, cl, fs, la, fns⟩ none =
      find_branch ⟨⟨proj, dv, .ptable f, pdir⟩, pf, cl, fs, la, fns⟩ none
        (find_of_packages (.ptable f))) ∧
    (_find_packages ⟨⟨proj, dv, .pabsent, pdir⟩, pf, cl, fs, la, fns⟩ none =
      find_branch ⟨⟨proj, dv, .pabsent, pdir⟩, pf, cl, fs, la, fns⟩ none
        (find_of_packages .pabsent)) :=
  ⟨fun _ => rfl, fun _ => rfl, rfl⟩

/-- C10: when a changelog file was supplied, the derived manifest's version
comes exclusively from the changelog — the whole derivation is independent
of the `tool.setuptools.dynamic.version` declaration — and the dynamic
version attribute (`package_version`) determines the version only when no
changelog was supplied. -/
theorem C10_changelog_precedence
    (proj : Option ProjTbl) (dv dv' : Option DynVersionTbl) (pkgs : PackagesVal)
    (pdir : Option (List (String × String))) (pf : Option String) (s : String)
    (fs : List String) (la : String → String → Option String)
    (fns : String → List String → List String → List String) :
    (package_data ⟨⟨proj, dv, pkgs, pdir⟩, pf, some s, fs, la, fns⟩ =
      package_data ⟨⟨proj, dv', pkgs, pdir⟩, pf, some s, fs, la, fns⟩) ∧
    (∀ d, package_data ⟨⟨proj, dv, pkgs, pdir⟩, pf, some s, fs, la, fns⟩ = .ok d →
      d.version = s) ∧
    (∀ d, package_data ⟨⟨proj, dv, pkgs, pdir⟩, pf, none, fs, la, fns⟩ = .ok d →
      package_version ⟨⟨proj, dv, pkgs, pdir⟩, pf, none, fs, la, fns⟩ = .ok d.version) := by
  refine ⟨rfl, ?_, ?_⟩
  · intro d hd
    unfold package_data at hd
    dsimp only at hd
    cases hu : package_url ⟨⟨proj, dv, pkgs, pdir⟩, pf, some s, fs, la, fns⟩ with
    | error e => rw [hu] at hd; exact Except.noConfusion hd
    | ok u => rw [hu] at hd; cases hd; rfl
  · intro d hd
    unfold package_data at hd
    dsimp only at hd
    cases hv : package_version ⟨⟨proj, dv, pkgs, pdir⟩, pf, none, fs, la, fns⟩ with
    | error e => rw [hv] at hd; exact Except.noConfusion hd
    | ok v =>
      rw [hv] at hd
      cases hu : package_url ⟨⟨proj, dv, pkgs, pdir⟩, pf, none, fs, la, fns⟩ with
      | error e => rw [hu] at hd; exact Except.noConfusion hd
      | ok u =>
        rw [hu] at hd
        cases hd
        rfl

/-- C10 witness: the precedence theorem applied at the worked example, with
a changelog extracting the sentinel and with a dynamic attribute resolving
to `9.9.9`. -/
theorem C10_changelog_precedence_witness :
    mfC3.version = "-1.-1.-1" ∧ mfC10.version = "9.9.9" ∧
    package_version instC10 = .ok "9.9.9" := by
  have h3 := (C10_changelog_precedence
    instC3.setupData.project none none instC3.setupData.packages
    instC3.setupData.packageDir none "-1.-1.-1" instC3.fs
    instC3.loadAttr instC3.findNS).2.1 mfC3 rfl
  have h10 := (C10_changelog_precedence
    instC10.setupData.project instC10.setupData.dynVersion none
    instC10.setupData.packages instC10.setupData.packageDir none "x"
    instC10.fs instC10.loadAttr instC10.findNS).2.2 mfC10 rfl
  exact ⟨h3, by rw [show mfC10.version = "9.9.9" from rfl], h10⟩

/-- Sorting is a permutation. -/
theorem sortUrls_perm (l : List (String × String)) : (sortUrls l).Perm l :=
  List.perm_insertionSort urlLe l

/-- The sorted list is sorted under the comparison order. -/
theorem sortUrls_sorted (l : List (String × String)) :
    List.Sorted urlLe (sortUrls l) :=
  List.sorted_insertionSort urlLe l

/-- Sorting two permutations of the same multiset of urls entries agrees
(the order is total, transitive and antisymmetric, so the sorted
permutation is unique). -/
theorem sortUrls_eq_of_perm {l₁ l₂ : List (String × String)} (h : l₁.Perm l₂) :
    sortUrls l₁ = sortUrls l₂ :=
  List.eq_of_perm_of_sorted ((sortUrls_perm l₁).trans (h.trans (sortUrls_perm l₂).symm))
    (sortUrls_sorted l₁) (sortUrls_sorted l₂)

/-- C5: the comparison is reflexive (any manifest dict compares equal to
itself under any flags) and insensitive to the order of urls entries: when
the two sides' urls are permutations of one another and version and deps
are either ignored via the flags or equal, `validate`'s comparison returns
`True`, because both urls lists are sorted before the equality check. -/
theorem C5_compare_reflexive_and_order_insensitive :
    (∀ (m : MDict) (iv id ibm : Bool), validate_core m m iv id ibm = true) ∧
    (∀ (u1 u2 : List (String × String)) (d1 d2 : Option (List String))
       (v1 v2 : Option String) (iv id ibm : Bool),
      u1.Perm u2 → (iv = true ∨ v1 = v2) → (id = true ∨ d1 = d2) →
      validate_core ⟨some u1, d1, v1⟩ ⟨some u2, d2, v2⟩ iv id ibm = true) := by
  constructor
  · intro m iv id ibm
    simp [validate_core, mdictEq]
  · intro u1 u2 d1 d2 v1 v2 iv id ibm hperm hv hd
    have hu : sortUrls u1 = sortUrls u2 := sortUrls_eq_of_perm hperm
    have hue : sortUrls (_exclude_package_files u1) =
        sortUrls (_exclude_package_files u2) :=
      sortUrls_eq_of_perm (hperm.filter _)
    rcases hv with hv | hv
    · subst hv
      rcases hd with hd | hd
      · subst hd
        cases ibm <;> simp [validate_core, mdictEq, hu, hue]
      · subst hd
        cases id <;> cases ibm <;> simp [validate_core, mdictEq, hu, hue]
    · subst hv
      rcases hd with hd | hd
      · subst hd
        cases iv <;> cases ibm <;> simp [validate_core, mdictEq, hu, hue]
      · subst hd
        cases iv <;> cases id <;> cases ibm <;> simp [validate_core, mdictEq, hu, hue]

/-- C5 witness: reflexivity at the example manifest, and order-insensitive
comparison at a two-element permutation with differing ignored fields. -/
theorem C5_compare_reflexive_and_order_insensitive_witness :
    validate_core (toMDict mfC3) (toMDict mfC3) false false false = true ∧
    validate_core ⟨some [("a", "1"), ("b", "2")], some ["x"], some "1"⟩
      ⟨some [("b", "2"), ("a", "1")], some ["y"], some "2"⟩ true true false = true := by
  constructor
  · exact C5_compare_reflexive_and_order_insensitive.1 (toMDict mfC3) false false false
  · exact C5_compare_reflexive_and_order_insensitive.2
      [("a", "1"), ("b", "2")] [("b", "2"), ("a", "1")] (some ["x"]) (some ["y"])
      (some "1") (some "2") true true false (by decide) (Or.inl rfl) (Or.inl rfl)

/-- Every discovered package file is an existing file under the project
root (`glob` enumerates `fs` and `is_file` filters to existing files). -/
theorem package_files_subset (inst : Inst) :
    ∀ f ∈ package_files inst, f ∈ inst.fs := by
  have key : ∀ (ps : List (String × String)) (acc : List String),
      (∀ f ∈ acc, f ∈ inst.fs) →
      ∀ f ∈ ps.foldl (fun acc info => acc ++ globPy inst.fs info.2) acc, f ∈ inst.fs := by
    intro ps
    induction ps with
    | nil => intro acc hacc f hf; exact hacc f hf
    | cons p ps ih =>
      intro acc hacc f hf
      refine ih _ ?_ f hf
      intro g hg
      rcases List.mem_append.mp hg with h | h
      · exact hacc g h
      · exact (List.mem_filter.mp h).1
  intro f hf
  exact key (_find_packages inst none) [] (by simp) f hf

/-- C8: for every configuration and filesystem state from which a manifest
is derived, each urls entry's relative path is an actual existing file
under the project root. -/
theorem C8_url_paths_exist (inst : Inst) (d : PkgData)
    (hd : package_data inst = .ok d) :
    ∀ e ∈ d.urls, e.1 ∈ inst.fs := by
  intro e he
  unfold package_data at hd
  split at hd
  · exact Except.noConfusion hd
  · split at hd
    · exact Except.noConfusion hd
    · cases hd
      dsimp only at he
      rcases List.mem_append.mp he with h | h
      · rcases List.mem_map.mp h with ⟨f, hf, rfl⟩
        exact package_files_subset inst f hf
      · rcases List.mem_map.mp h with ⟨f, hf, rfl⟩
        exact absurd hf (List.not_mem_nil f)

/-- C8 witness: the property applied to the worked example. -/
theorem C8_url_paths_exist_witness :
    package_data instC3v = .ok mfC3 ∧
    ("widget/__init__.py", "github:acme/widget/widget/__init__.py") ∈ mfC3.urls ∧
    "widget/__init__.py" ∈ instC3v.fs := by
  refine ⟨rfl, by decide, ?_⟩
  exact C8_url_paths_exist instC3v mfC3 rfl
    ("widget/__init__.py", "github:acme/widget/widget/__init__.py") (by decide)

/-! Round-trip lemmas: `json.load` recovers what `json.dumps` wrote. -/

/-- Skipping whitespace ignores an all-whitespace prefix. -/
theorem skipWs_append {w : List Char} (h : wsOnly w = true) (l : List Char) :
    skipWs (w ++ l) = skipWs l := by
  induction w with
  | nil => rfl
  | cons c cs ih =>
    simp only [wsOnly, List.all_cons, Bool.and_eq_true] at h
    simp only [List.cons_append, skipWs, h.1, if_true]
    exact ih (by simp [wsOnly, h.2])

/-- Skipping whitespace stops at a non-whitespace character. -/
theorem skipWs_cons {c : Char} (h : isWsChar c = false) (l : List Char) :
    skipWs (c :: l) = c :: l := by
  simp [skipWs, h]

/-- The indentation emitted by the pretty dumper is all whitespace. -/
theorem wsOnly_indentChars (n : Nat) : wsOnly (indentChars n) = true := by
  simp [wsOnly, indentChars, List.all_eq_true, List.mem_replicate, isWsChar]

/-- Consuming an expected head character succeeds. -/
theorem expectChar_cons {c : Char} (h : isWsChar c = false) (l : List Char) :
    expectChar c (c :: l) = some l := by
  unfold expectChar
  rw [skipWs_cons h]
  dsimp only
  rw [if_pos (show (c == c) = true by simp)]

/-- A whitespace prefix does not change the expected character. -/
theorem expectChar_ws {w : List Char} (h : wsOnly w = true) (c : Char) (l : List Char) :
    expectChar c (w ++ l) = expectChar c l := by
  unfold expectChar
  rw [skipWs_append h]

/-- Decoding inverts the hex digit encoding. -/
theorem hexVal_hexDigChar {n : Nat} (h : n < 16) : hexVal (hexDigChar n) = some n := by
  have key : ∀ m : Fin 16, hexVal (hexDigChar m.val) = some m.val := by decide
  exact key ⟨n, h⟩

/-- Decoding inverts the four-digit hex encoding. -/
theorem hex4_enc {n : Nat} (h : n < 65536) :
    hex4 (hexDigChar (n / 4096 % 16)) (hexDigChar (n / 256 % 16))
      (hexDigChar (n / 16 % 16)) (hexDigChar (n % 16)) = some n := by
  unfold hex4
  rw [hexVal_hexDigChar (Nat.mod_lt _ (by norm_num)),
      hexVal_hexDigChar (Nat.mod_lt _ (by norm_num)),
      hexVal_hexDigChar (Nat.mod_lt _ (by norm_num)),
      hexVal_hexDigChar (Nat.mod_lt _ (by norm_num))]
  show some (((n / 4096 % 16 * 16 + n / 256 % 16) * 16 + n / 16 % 16) * 16 + n % 16)
      = some n
  congr 1
  omega

/-- A character's code point is a valid scalar value. -/
theorem char_toNat_valid (c : Char) : Nat.isValidChar c.toNat := c.valid

/-- Character code points are below 0x110000. -/
theorem char_toNat_lt (c : Char) : c.toNat < 1114112 := by
  rcases char_toNat_valid c with h | ⟨h1, h2⟩ <;> omega

/-- Character code points avoid the surrogate range. -/
theorem char_not_surrogate (c : Char) : c.toNat < 55296 ∨ 57343 < c.toNat := by
  rcases char_toNat_valid c with h | ⟨h1, h2⟩
  · exact Or.inl h
  · exact Or.inr h1

/-- One-step unfolding of the string-body parser at a `\uXXXX` escape. -/
theorem parseStrBody_u_step (fuel : Nat) (h1 h2 h3 h4 : Char) (t : List Char) :
    parseStrBody (fuel + 1) ('\\' :: 'u' :: h1 :: h2 :: h3 :: h4 :: t) =
      (match hex4 h1 h2 h3 h4 with
       | none => none
       | some n =>
         if 55296 ≤ n ∧ n ≤ 56319 then
           match t with
           | b1 :: b2 :: g1 :: g2 :: g3 :: g4 :: rest4 =>
             (if b1 == '\\' && b2 == 'u' then
               match hex4 g1 g2 g3 g4 with
               | none => none
               | some m =>
                 if 56320 ≤ m ∧ m ≤ 57343 then
                   match parseStrBody fuel rest4 with
                   | some (cs, r) =>
                     some (Char.ofNat (65536 + (n - 55296) * 1024 + (m - 56320)) :: cs, r)
                   | none => none
                 else none
              else none)
           | _ => none
         else if 56320 ≤ n ∧ n ≤ 57343 then none
         else
           match parseStrBody fuel t with
           | some (cs, r) => some (Char.ofNat n :: cs, r)
           | none => none) := rfl

/-- Parsing a dumped non-surrogate `\uXXXX` escape yields its character. -/
theorem parseStrBody_u (fuel n : Nat) (hn : n < 65536)
    (hlo : ¬(55296 ≤ n ∧ n ≤ 56319)) (hhi : ¬(56320 ≤ n ∧ n ≤ 57343)) (t : List Char) :
    parseStrBody (fuel + 1) (('\\' :: 'u' :: hex4enc n) ++ t) =
      match parseStrBody fuel t with
      | some (cs, r) => some (Char.ofNat n :: cs, r)
      | none => none := by
  have hshape : ('\\' :: 'u' :: hex4enc n) ++ t =
      '\\' :: 'u' :: hexDigChar (n / 4096 % 16) :: hexDigChar (n / 256 % 16) ::
        hexDigChar (n / 16 % 16) :: hexDigChar (n % 16) :: t := by
    simp [hex4enc]
  rw [hshape, parseStrBody_u_step, hex4_enc hn]
  dsimp only
  rw [if_neg hlo, if_neg hhi]

/-- Parsing a dumped surrogate pair yields the astral character. -/
theorem parseStrBody_sur (fuel n : Nat) (hge : 65536 ≤ n) (hlt : n < 1114112)
    (t : List Char) :
    parseStrBody (fuel + 1)
      ((('\\' :: 'u' :: hex4enc (55296 + (n - 65536) / 1024)) ++
        ('\\' :: 'u' :: hex4enc (56320 + (n - 65536) % 1024))) ++ t) =
      match parseStrBody fuel t with
      | some (cs, r) => some (Char.ofNat n :: cs, r)
      | none => none := by
  have e1 : 55296 + (n - 65536) / 1024 < 65536 := by omega
  have e2 : 56320 + (n - 65536) % 1024 < 65536 := by omega
  have hshape : ((('\\' :: 'u' :: hex4enc (55296 + (n - 65536) / 1024)) ++
        ('\\' :: 'u' :: hex4enc (56320 + (n - 65536) % 1024))) ++ t) =
      '\\' :: 'u' :: hexDigChar ((55296 + (n - 65536) / 1024) / 4096 % 16) ::
        hexDigChar ((55296 + (n - 65536) / 1024) / 256 % 16) ::
        hexDigChar ((55296 + (n - 65536) / 1024) / 16 % 16) ::
        hexDigChar ((55296 + (n - 65536) / 1024) % 16) ::
        ('\\' :: 'u' :: hexDigChar ((56320 + (n - 65536) % 1024) / 4096 % 16) ::
          hexDigChar ((56320 + (n - 65536) % 1024) / 256 % 16) ::
          hexDigChar ((56320 + (n - 65536) % 1024) / 16 % 16) ::
          hexDigChar ((56320 + (n - 65536) % 1024) % 16) :: t) := by
    simp [hex4enc]
  rw [hshape, parseStrBody_u_step, hex4_enc e1]
  dsimp only
  rw [if_pos (show 55296 ≤ 55296 + (n - 65536) / 1024 ∧
        55296 + (n - 65536) / 1024 ≤ 56319 by omega)]
  rw [if_pos (show (('\\' : Char) == '\\' && ('u' : Char) == 'u') = true from rfl)]
  rw [hex4_enc e2]
  dsimp only
  rw [if_pos (show 56320 ≤ 56320 + (n - 65536) % 1024 ∧
        56320 + (n - 65536) % 1024 ≤ 57343 by omega)]
  have harg : 65536 + (55296 + (n - 65536) / 1024 - 55296) * 1024 +
      (56320 + (n - 65536) % 1024 - 56320) = n := by omega
  rw [harg]

/-- Parsing the dumped escape of one character recovers that character and
continues: the escape consumes one unit of fuel. -/
theorem parseStrBody_escapeChar (c : Char) (fuel : Nat) (t : List Char) :
    parseStrBody (fuel + 1) (escapeChar c ++ t) =
      match parseStrBody fuel t with
      | some (cs, r) => some (c :: cs, r)
      | none => none := by
  by_cases h1 : (c == '"') = true
  · obtain rfl : c = '"' := eq_of_beq h1
    rfl
  by_cases h2 : (c == '\\') = true
  · obtain rfl : c = '\\' := eq_of_beq h2
    rfl
  by_cases h3 : (c == '\n') = true
  · obtain rfl : c = '\n' := eq_of_beq h3
    rfl
  by_cases h4 : (c == '\r') = true
  · obtain rfl : c = '\r' := eq_of_beq h4
    rfl
  by_cases h5 : (c == '\t') = true
  · obtain rfl : c = '\t' := eq_of_beq h5
    rfl
  by_cases h6 : (c.toNat == 8) = true
  · have hn : c.toNat = 8 := eq_of_beq h6
    have hc : c = Char.ofNat 8 := by rw [← Char.ofNat_toNat c, hn]
    subst hc
    rfl
  by_cases h7 : (c.toNat == 12) = true
  · have hn : c.toNat = 12 := eq_of_beq h7
    have hc : c = Char.ofNat 12 := by rw [← Char.ofNat_toNat c, hn]
    subst hc
    rfl
  by_cases h8 : c.toNat < 32
  · unfold escapeChar
    rw [if_neg h1, if_neg h2, if_neg h3, if_neg h4, if_neg h5, if_neg h6, if_neg h7,
      if_pos h8]
    rw [parseStrBody_u fuel c.toNat (by omega) (by omega) (by omega) t,
      Char.ofNat_toNat]
  by_cases h9 : c.toNat ≤ 126
  · unfold escapeChar
    rw [if_neg h1, if_neg h2, if_neg h3, if_neg h4, if_neg h5, if_neg h6, if_neg h7,
      if_neg h8, if_pos h9]
    show parseStrBody (fuel + 1) (c :: t) = _
    rw [parseStrBody.eq_def]
    dsimp only
    rw [if_neg h1, if_neg h2, if_neg (show ¬c.toNat < 32 from h8)]
  by_cases h10 : c.toNat < 65536
  · have hsur := char_not_surrogate c
    unfold escapeChar
    rw [if_neg h1, if_neg h2, if_neg h3, if_neg h4, if_neg h5, if_neg h6, if_neg h7,
      if_neg h8, if_neg h9, if_pos h10]
    rw [parseStrBody_u fuel c.toNat h10 (by omega) (by omega) t, Char.ofNat_toNat]
  · unfold escapeChar
    rw [if_neg h1, if_neg h2, if_neg h3, if_neg h4, if_neg h5, if_neg h6, if_neg h7,
      if_neg h8, if_neg h9, if_neg h10]
    rw [parseStrBody_sur fuel c.toNat (by omega) (char_toNat_lt c) t,
      Char.ofNat_toNat]

/-- Parsing the dumped escapes of a character list, then a closing quote,
recovers the list. -/
theorem parseStrBody_escs (cs : List Char) : ∀ (fuel : Nat) (t : List Char),
    cs.length < fuel →
    parseStrBody fuel (cs.flatMap escapeChar ++ ('"' :: t)) = some (cs, t) := by
  induction cs with
  | nil =>
    intro fuel t h
    cases fuel with
    | zero => exact absurd h (by omega)
    | succ f => rfl
  | cons c cs ih =>
    intro fuel t h
    cases fuel with
    | zero => exact absurd h (by omega)
    | succ f =>
      rw [List.flatMap_cons, List.append_assoc, parseStrBody_escapeChar c f]
      rw [ih f t (by simpa using Nat.lt_of_succ_lt_succ h)]

/-- Parsing a dumped string token recovers the string. -/
theorem parseStr_dumpStr (s : String) (fuel : Nat) (t : List Char)
    (h : s.data.length < fuel) :
    parseStr fuel (dumpStr s ++ t) = some (s, t) := by
  unfold parseStr dumpStr
  rw [show ('"' :: (s.data.flatMap escapeChar ++ ['"'])) ++ t
        = '"' :: (s.data.flatMap escapeChar ++ ('"' :: t)) from by simp]
  rw [expectChar_cons (by decide)]
  show (match parseStrBody fuel (s.data.flatMap escapeChar ++ ('"' :: t)) with
        | some (cs, r) => some (String.mk cs, r)
        | none => none) = some (s, t)
  rw [parseStrBody_escs s.data fuel t h]

/-- A whitespace prefix does not change string-token parsing. -/
theorem parseStr_ws {w : List Char} (h : wsOnly w = true) (fuel : Nat) (l : List Char) :
    parseStr fuel (w ++ l) = parseStr fuel l := by
  unfold parseStr
  rw [expectChar_ws h]

/-- A dumped string starts with a quote, which is not whitespace. -/
theorem skipWs_dumpStr (s : String) (x : List Char) :
    skipWs (dumpStr s ++ x) = dumpStr s ++ x := by
  unfold dumpStr
  rw [List.cons_append, skipWs_cons (by decide)]

/-- A whitespace prefix does not change string-item parsing. -/
theorem parseStrItems_ws {w : List Char} (h : wsOnly w = true) (fuel : Nat)
    (l : List Char) : parseStrItems fuel (w ++ l) = parseStrItems fuel l := by
  cases fuel with
  | zero => rfl
  | succ f =>
    unfold parseStrItems
    rw [parseStr_ws h]

/-- A dumped nonempty string-item stream starts with a quote. -/
theorem strItems_head (sep : List Char) (s : String) (ss : List String)
    (z : List Char) :
    ∃ W, joinSep (',' :: sep) ((s :: ss).map dumpStr) ++ z = '"' :: W := by
  cases ss with
  | nil =>
    refine ⟨(s.data.flatMap escapeChar ++ ['"']) ++ z, ?_⟩
    simp [joinSep, dumpStr]
  | cons s2 ss =>
    refine ⟨(s.data.flatMap escapeChar ++ ['"']) ++
      ((',' :: sep) ++ (joinSep (',' :: sep) ((s2 :: ss).map dumpStr) ++ z)), ?_⟩
    simp [joinSep, dumpStr, List.append_assoc]

/-- Parsing the dumped items of a nonempty string list consumes the items,
their separators, a whitespace run, and the closing bracket. -/
theorem parseStrItems_dump (ss : List String) : ∀ (s : String) (fuel : Nat)
    (sep tail t : List Char), wsOnly sep = true → wsOnly tail = true →
    strsFuel (s :: ss) ≤ fuel →
    parseStrItems fuel
      (joinSep (',' :: sep) ((s :: ss).map dumpStr) ++ (tail ++ (']' :: t))) =
      some (s :: ss, t) := by
  induction ss with
  | nil =>
    intro s fuel sep tail t hsep htail hf
    cases fuel with
    | zero =>
      exfalso
      simp only [strsFuel, List.foldr_cons, List.foldr_nil] at hf
      omega
    | succ f =>
      simp only [strsFuel, List.foldr_cons, List.foldr_nil] at hf
      show parseStrItems (f + 1) (dumpStr s ++ (tail ++ (']' :: t))) = some ([s], t)
      unfold parseStrItems
      rw [parseStr_dumpStr s (f + 1) _ (by omega)]
      dsimp only
      rw [skipWs_append htail, skipWs_cons (by decide)]
      dsimp only
      rw [if_neg (show ¬(((']' : Char) == ',') = true) by decide),
        if_pos (show ((']' : Char) == ']') = true by decide)]
  | cons s2 ss ih =>
    intro s fuel sep tail t hsep htail hf
    cases fuel with
    | zero =>
      exfalso
      simp only [strsFuel, List.foldr_cons, List.foldr_nil] at hf
      omega
    | succ f =>
      simp only [strsFuel, List.foldr_cons, List.foldr_nil] at hf
      have hshape : joinSep (',' :: sep) ((s :: s2 :: ss).map dumpStr) ++
          (tail ++ (']' :: t)) =
          dumpStr s ++ ((',' :: sep) ++
            (joinSep (',' :: sep) ((s2 :: ss).map dumpStr) ++ (tail ++ (']' :: t)))) := by
        simp [joinSep, List.append_assoc]
      rw [hshape]
      unfold parseStrItems
      rw [parseStr_dumpStr s (f + 1) _ (by omega)]
      dsimp only
      rw [List.cons_append, skipWs_cons (by decide)]
      dsimp only
      rw [if_pos (show ((',' : Char) == ',') = true by decide)]
      rw [parseStrItems_ws hsep]
      rw [ih s2 f sep tail t hsep htail
        (by simp only [strsFuel, List.foldr_cons, List.foldr_nil]; omega)]

/-- Parsing a dumped string array recovers the list (both layout modes). -/
theorem parseStrList_dump (ss : List String) (pretty : Bool) (lvl fuel : Nat)
    (t : List Char) (hf : strsFuel ss < fuel) :
    parseStrList fuel (dumpArr pretty lvl (ss.map dumpStr) ++ t) = some (ss, t) := by
  cases ss with
  | nil =>
    show parseStrList fuel ('[' :: (']' :: t)) = some ([], t)
    unfold parseStrList
    rw [expectChar_cons (by decide)]
    dsimp only
    rw [skipWs_cons (by decide)]
    dsimp only
    rw [if_pos (show ((']' : Char) == ']') = true by decide)]
    rw [expectChar_cons (by decide)]
  | cons s ss =>
    cases pretty with
    | false =>
      have hshape : dumpArr false lvl ((s :: ss).map dumpStr) ++ t =
          '[' :: (joinSep (',' :: [' ']) ((s :: ss).map dumpStr) ++ ([] ++ (']' :: t))) := by
        simp [dumpArr, List.append_assoc]
      rw [hshape]
      unfold parseStrList
      rw [expectChar_cons (by decide)]
      dsimp only
      obtain ⟨W, hW⟩ := strItems_head [' '] s ss ([] ++ (']' :: t))
      rw [hW, skipWs_cons (by decide)]
      dsimp only
      rw [if_neg (show ¬((('"' : Char) == ']') = true) by decide)]
      rw [← hW]
      exact parseStrItems_dump ss s fuel [' '] [] t (by decide) (by decide)
        (by omega)
    | true =>
      have hshape : dumpArr true lvl ((s :: ss).map dumpStr) ++ t =
          '[' :: (indentChars (4 * (lvl + 1)) ++
            (joinSep (',' :: indentChars (4 * (lvl + 1))) ((s :: ss).map dumpStr) ++
              (indentChars (4 * lvl) ++ (']' :: t)))) := by
        simp [dumpArr, List.append_assoc]
      rw [hshape]
      unfold parseStrList
      rw [expectChar_cons (by decide)]
      dsimp only
      obtain ⟨W, hW⟩ := strItems_head (indentChars (4 * (lvl + 1))) s ss
        (indentChars (4 * lvl) ++ (']' :: t))
      rw [skipWs_append (wsOnly_indentChars _), hW, skipWs_cons (by decide)]
      dsimp only
      rw [if_neg (show ¬((('"' : Char) == ']') = true) by decide)]
      rw [parseStrItems_ws (wsOnly_indentChars _), ← hW]
      exact parseStrItems_dump ss s fuel (indentChars (4 * (lvl + 1)))
        (indentChars (4 * lvl)) t (wsOnly_indentChars _) (wsOnly_indentChars _)
        (by omega)

/-- Splitting off the first dumped item of a separated stream. -/
theorem joinSep_head_append (sep x : List Char) (xs : List (List Char))
    (z : List Char) : ∃ Y, joinSep sep (x :: xs) ++ z = x ++ Y := by
  cases xs with
  | nil => exact ⟨z, rfl⟩
  | cons y ys =>
    exact ⟨sep ++ (joinSep sep (y :: ys) ++ z), by simp [joinSep, List.append_assoc]⟩

/-- A dumped nonempty array starts with an opening bracket. -/
theorem dumpArr_head (pretty : Bool) (lvl : Nat) (x : List Char)
    (xs : List (List Char)) : ∃ W, dumpArr pretty lvl (x :: xs) = '[' :: W := by
  cases pretty with
  | false => exact ⟨_, rfl⟩
  | true => exact ⟨_, rfl⟩

/-- Parsing a dumped urls pair recovers the pair (both layout modes). -/
theorem parsePair_dump (pretty : Bool) (lvl : Nat) (a b : String) (fuel : Nat)
    (t : List Char) (ha : a.data.length < fuel) (hb : b.data.length < fuel) :
    parsePair fuel (dumpArr pretty lvl [dumpStr a, dumpStr b] ++ t) = some ((a, b), t) := by
  cases pretty with
  | false =>
    have hshape : dumpArr false lvl [dumpStr a, dumpStr b] ++ t =
        '[' :: (dumpStr a ++ (',' :: ([' '] ++ (dumpStr b ++ (']' :: t))))) := by
      simp [dumpArr, joinSep, List.append_assoc]
    rw [hshape]
    unfold parsePair
    rw [expectChar_cons (by decide)]
    dsimp only
    rw [parseStr_dumpStr a fuel _ ha]
    dsimp only
    rw [expectChar_cons (by decide)]
    dsimp only
    rw [parseStr_ws (by decide) fuel, parseStr_dumpStr b fuel _ hb]
    dsimp only
    rw [expectChar_cons (by decide)]
  | true =>
    have hshape : dumpArr true lvl [dumpStr a, dumpStr b] ++ t =
        '[' :: (indentChars (4 * (lvl + 1)) ++ (dumpStr a ++ (',' ::
          (indentChars (4 * (lvl + 1)) ++ (dumpStr b ++
            (indentChars (4 * lvl) ++ (']' :: t))))))) := by
      simp [dumpArr, joinSep, List.append_assoc]
    rw [hshape]
    unfold parsePair
    rw [expectChar_cons (by decide)]
    dsimp only
    rw [parseStr_ws (wsOnly_indentChars _) fuel, parseStr_dumpStr a fuel _ ha]
    dsimp only
    rw [expectChar_cons (by decide)]
    dsimp only
    rw [parseStr_ws (wsOnly_indentChars _) fuel, parseStr_dumpStr b fuel _ hb]
    dsimp only
    rw [expectChar_ws (wsOnly_indentChars _), expectChar_cons (by decide)]

/-- A whitespace prefix does not change pair parsing. -/
theorem parsePair_ws {w : List Char} (h : wsOnly w = true) (fuel : Nat)
    (l : List Char) : parsePair fuel (w ++ l) = parsePair fuel l := by
  unfold parsePair
  rw [expectChar_ws h]

/-- A whitespace prefix does not change pair-item parsing. -/
theorem parsePairItems_ws {w : List Char} (h : wsOnly w = true) (fuel : Nat)
    (l : List Char) : parsePairItems fuel (w ++ l) = parsePairItems fuel l := by
  cases fuel with
  | zero => rfl
  | succ f =>
    unfold parsePairItems
    rw [parsePair_ws h]

/-- A dumped nonempty pair-item stream starts with an opening bracket. -/
theorem pairItems_head (pretty : Bool) (lvl : Nat) (sep : List Char)
    (p : String × String) (ps : List (String × String)) (z : List Char) :
    ∃ W, joinSep (',' :: sep)
      ((p :: ps).map (fun q => dumpArr pretty lvl [dumpStr q.1, dumpStr q.2])) ++ z =
      '[' :: W := by
  obtain ⟨Y, hY⟩ := joinSep_head_append (',' :: sep)
    (dumpArr pretty lvl [dumpStr p.1, dumpStr p.2])
    ((ps).map (fun q => dumpArr pretty lvl [dumpStr q.1, dumpStr q.2])) z
  obtain ⟨W, hW⟩ := dumpArr_head pretty lvl (dumpStr p.1) [dumpStr p.2]
  refine ⟨W ++ Y, ?_⟩
  rw [show ((p :: ps).map (fun q => dumpArr pretty lvl [dumpStr q.1, dumpStr q.2])) =
    dumpArr pretty lvl [dumpStr p.1, dumpStr p.2] ::
      ps.map (fun q => dumpArr pretty lvl [dumpStr q.1, dumpStr q.2]) from rfl]
  rw [hY, hW]
  simp

/-- Parsing the dumped items of a nonempty pair list consumes the items,
their separators, a whitespace run, and the closing bracket. -/
theorem parsePairItems_dump (ps : List (String × String)) :
    ∀ (p : String × String) (pretty : Bool) (lvl fuel : Nat)
    (sep tail t : List Char), wsOnly sep = true → wsOnly tail = true →
    pairsFuel (p :: ps) ≤ fuel →
    parsePairItems fuel
      (joinSep (',' :: sep)
        ((p :: ps).map (fun q => dumpArr pretty lvl [dumpStr q.1, dumpStr q.2])) ++
          (tail ++ (']' :: t))) =
      some (p :: ps, t) := by
  induction ps with
  | nil =>
    intro p pretty lvl fuel sep tail t hsep htail hf
    cases fuel with
    | zero =>
      exfalso
      simp only [pairsFuel, List.foldr_cons, List.foldr_nil] at hf
      omega
    | succ f =>
      simp only [pairsFuel, List.foldr_cons, List.foldr_nil] at hf
      show parsePairItems (f + 1)
        (dumpArr pretty lvl [dumpStr p.1, dumpStr p.2] ++ (tail ++ (']' :: t))) =
        some ([p], t)
      unfold parsePairItems
      rw [parsePair_dump pretty lvl p.1 p.2 (f + 1) _ (by omega) (by omega)]
      dsimp only
      rw [skipWs_append htail, skipWs_cons (by decide)]
      dsimp only
      rw [if_neg (show ¬(((']' : Char) == ',') = true) by decide),
        if_pos (show ((']' : Char) == ']') = true by decide)]
  | cons p2 ps ih =>
    intro p pretty lvl fuel sep tail t hsep htail hf
    cases fuel with
    | zero =>
      exfalso
      simp only [pairsFuel, List.foldr_cons, List.foldr_nil] at hf
      omega
    | succ f =>
      simp only [pairsFuel, List.foldr_cons, List.foldr_nil] at hf
      have hshape : joinSep (',' :: sep)
          ((p :: p2 :: ps).map (fun q => dumpArr pretty lvl [dumpStr q.1, dumpStr q.2])) ++
            (tail ++ (']' :: t)) =
          dumpArr pretty lvl [dumpStr p.1, dumpStr p.2] ++ ((',' :: sep) ++
            (joinSep (',' :: sep)
              ((p2 :: ps).map (fun q => dumpArr pretty lvl [dumpStr q.1, dumpStr q.2])) ++
                (tail ++ (']' :: t)))) := by
        simp [joinSep, List.append_assoc]
      rw [hshape]
      unfold parsePairItems
      rw [parsePair_dump pretty lvl p.1 p.2 (f + 1) _ (by omega) (by omega)]
      dsimp only
      rw [List.cons_append, skipWs_cons (by decide)]
      dsimp only
      rw [if_pos (show ((',' : Char) == ',') = true by decide)]
      rw [parsePairItems_ws hsep]
      rw [ih p2 pretty lvl f sep tail t hsep htail
        (by simp only [pairsFuel, List.foldr_cons, List.foldr_nil]; omega)]

/-- Parsing a dumped urls array recovers the list (both layout modes). -/
theorem parsePairList_dump (ps : List (String × String)) (pretty : Bool)
    (lvl fuel : Nat) (t : List Char) (hf : pairsFuel ps < fuel) :
    parsePairList fuel
      (dumpArr pretty lvl (ps.map (fun q => dumpArr pretty (lvl + 1) [dumpStr q.1, dumpStr q.2])) ++ t) =
      some (ps, t) := by
  cases ps with
  | nil =>
    show parsePairList fuel ('[' :: (']' :: t)) = some ([], t)
    unfold parsePairList
    rw [expectChar_cons (by decide)]
    dsimp only
    rw [skipWs_cons (by decide)]
    dsimp only
    rw [if_pos (show ((']' : Char) == ']') = true by decide)]
    rw [expectChar_cons (by decide)]
  | cons p ps =>
    cases pretty with
    | false =>
      have hshape : dumpArr false lvl
          ((p :: ps).map (fun q => dumpArr false (lvl + 1) [dumpStr q.1, dumpStr q.2])) ++ t =
          '[' :: (joinSep (',' :: [' '])
            ((p :: ps).map (fun q => dumpArr false (lvl + 1) [dumpStr q.1, dumpStr q.2])) ++
              ([] ++ (']' :: t))) := by
        simp [dumpArr, List.append_assoc]
      rw [hshape]
      unfold parsePairList
      rw [expectChar_cons (by decide)]
      dsimp only
      obtain ⟨W, hW⟩ := pairItems_head false (lvl + 1) [' '] p ps ([] ++ (']' :: t))
      rw [hW, skipWs_cons (by decide)]
      dsimp only
      rw [if_neg (show ¬((('[' : Char) == ']') = true) by decide)]
      rw [← hW]
      exact parsePairItems_dump ps p false (lvl + 1) fuel [' '] [] t (by decide)
        (by decide) (by omega)
    | true =>
      have hshape : dumpArr true lvl
          ((p :: ps).map (fun q => dumpArr true (lvl + 1) [dumpStr q.1, dumpStr q.2])) ++ t =
          '[' :: (indentChars (4 * (lvl + 1)) ++
            (joinSep (',' :: indentChars (4 * (lvl + 1)))
              ((p :: ps).map (fun q => dumpArr true (lvl + 1) [dumpStr q.1, dumpStr q.2])) ++
                (indentChars (4 * lvl) ++ (']' :: t)))) := by
        simp [dumpArr, List.append_assoc]
      rw [hshape]
      unfold parsePairList
      rw [expectChar_cons (by decide)]
      dsimp only
      obtain ⟨W, hW⟩ := pairItems_head true (lvl + 1) (indentChars (4 * (lvl + 1))) p ps
        (indentChars (4 * lvl) ++ (']' :: t))
      rw [skipWs_append (wsOnly_indentChars _), hW, skipWs_cons (by decide)]
      dsimp only
      rw [if_neg (show ¬((('[' : Char) == ']') = true) by decide)]
      rw [parsePairItems_ws (wsOnly_indentChars _), ← hW]
      exact parsePairItems_dump ps p true (lvl + 1) fuel (indentChars (4 * (lvl + 1)))
        (indentChars (4 * lvl)) t (wsOnly_indentChars _) (wsOnly_indentChars _)
        (by omega)

/-- A whitespace prefix does not change string-array parsing. -/
theorem parseStrList_ws {w : List Char} (h : wsOnly w = true) (fuel : Nat)
    (l : List Char) : parseStrList fuel (w ++ l) = parseStrList fuel l := by
  unfold parseStrList
  rw [expectChar_ws h]

/-- A whitespace prefix does not change pair-array parsing. -/
theorem parsePairList_ws {w : List Char} (h : wsOnly w = true) (fuel : Nat)
    (l : List Char) : parsePairList fuel (w ++ l) = parsePairList fuel l := by
  unfold parsePairList
  rw [expectChar_ws h]

/-- A whitespace prefix does not change object-entry parsing. -/
theorem parseEntries_ws {w : List Char} (h : wsOnly w = true) (fuel : Nat)
    (d : MDict) (l : List Char) :
    parseEntries fuel d (w ++ l) = parseEntries fuel d l := by
  cases fuel with
  | zero => rfl
  | succ f =>
    unfold parseEntries
    rw [parseStr_ws h]

/-- The single space the dumper puts after a colon is whitespace. -/
theorem parsePairList_space (fuel : Nat) (l : List Char) :
    parsePairList fuel (' ' :: l) = parsePairList fuel l := by
  rw [show (' ' :: l) = [' '] ++ l from rfl, parsePairList_ws (by decide)]

/-- The single space the dumper puts after a colon is whitespace. -/
theorem parseStrList_space (fuel : Nat) (l : List Char) :
    parseStrList fuel (' ' :: l) = parseStrList fuel l := by
  rw [show (' ' :: l) = [' '] ++ l from rfl, parseStrList_ws (by decide)]

/-- The single space the dumper puts after a colon is whitespace. -/
theorem parseStr_space (fuel : Nat) (l : List Char) :
    parseStr fuel (' ' :: l) = parseStr fuel l := by
  rw [show (' ' :: l) = [' '] ++ l from rfl, parseStr_ws (by decide)]

/-- Parsing the dumped urls / deps / version entries of a manifest object
recovers the manifest dict and consumes the closing brace. -/
theorem parseEntries_manifest (pretty : Bool) (d : PkgData) (F : Nat)
    (sep1 sep2 sep3 tail : List Char)
    (h1 : wsOnly sep1 = true) (h2 : wsOnly sep2 = true) (h3 : wsOnly sep3 = true)
    (htail : wsOnly tail = true) (t : List Char)
    (hF : pairsFuel d.urls + strsFuel d.deps + d.version.data.length + 12 ≤ F) :
    parseEntries F emptyMDict
      (sep1 ++ (dumpStr "urls" ++ (':' :: (' ' ::
        (dumpArr pretty 1 (d.urls.map (fun p => dumpArr pretty 2 [dumpStr p.1, dumpStr p.2])) ++
          (',' :: (sep2 ++ (dumpStr "deps" ++ (':' :: (' ' ::
            (dumpArr pretty 1 (d.deps.map dumpStr) ++
              (',' :: (sep3 ++ (dumpStr "version" ++ (':' :: (' ' ::
                (dumpStr d.version ++ (tail ++ (rbrace :: t))))))))))))))))))) =
      some (toMDict d, t) := by
  have hu : ("urls" : String).data.length = 4 := rfl
  have hd : ("deps" : String).data.length = 4 := rfl
  have hv : ("version" : String).data.length = 7 := rfl
  cases F with
  | zero => omega
  | succ f1 =>
    cases f1 with
    | zero => omega
    | succ f2 =>
      cases f2 with
      | zero => omega
      | succ f3 =>
        unfold parseEntries
        rw [parseStr_ws h1, parseStr_dumpStr "urls" _ _ (by omega)]
        dsimp only
        rw [expectChar_cons (by decide)]
        dsimp only
        unfold parseEntryValue
        rw [if_pos (show (("urls" : String) == "urls") = true by decide)]
        rw [parsePairList_space, parsePairList_dump d.urls pretty 1 _ _ (by omega)]
        dsimp only
        rw [skipWs_cons (by decide)]
        dsimp only
        rw [if_pos (show ((',' : Char) == ',') = true by decide)]
        rw [parseEntries_ws h2]
        unfold parseEntries
        rw [parseStr_dumpStr "deps" _ _ (by omega)]
        dsimp only
        rw [expectChar_cons (by decide)]
        dsimp only
        unfold parseEntryValue
        rw [if_neg (show ¬((("deps" : String) == "urls") = true) by decide),
          if_pos (show (("deps" : String) == "deps") = true by decide)]
        rw [parseStrList_space, parseStrList_dump d.deps pretty 1 _ _ (by omega)]
        dsimp only
        rw [skipWs_cons (by decide)]
        dsimp only
        rw [if_pos (show ((',' : Char) == ',') = true by decide)]
        rw [parseEntries_ws h3]
        unfold parseEntries
        rw [parseStr_dumpStr "version" _ _ (by omega)]
        dsimp only
        rw [expectChar_cons (by decide)]
        dsimp only
        unfold parseEntryValue
        rw [if_neg (show ¬((("version" : String) == "urls") = true) by decide),
          if_neg (show ¬((("version" : String) == "deps") = true) by decide),
          if_pos (show (("version" : String) == "version") = true by decide)]
        rw [parseStr_space, parseStr_dumpStr d.version _ _ (by omega)]
        dsimp only
        rw [skipWs_append htail, skipWs_cons (by decide)]
        dsimp only
        rw [if_neg (show ¬((rbrace == ',') = true) by decide),
          if_pos (show (rbrace == rbrace) = true by decide)]
        rfl

set_option maxHeartbeats 1000000 in
/-- Every escape is at least one character. -/
theorem escapeChar_length (c : Char) : 1 ≤ (escapeChar c).length := by
  unfold escapeChar
  split_ifs <;> simp [hex4enc]

/-- Escaping does not shorten a character list. -/
theorem flatMap_escape_length (cs : List Char) :
    cs.length ≤ (cs.flatMap escapeChar).length := by
  induction cs with
  | nil => simp
  | cons c cs ih =>
    rw [List.flatMap_cons, List.length_append]
    have := escapeChar_length c
    simp only [List.length_cons]
    omega

/-- A dumped string is at least two characters longer than the string. -/
theorem dumpStr_length (s : String) :
    s.data.length + 2 ≤ (dumpStr s).length := by
  unfold dumpStr
  have := flatMap_escape_length s.data
  simp only [List.length_cons, List.length_append, List.length_singleton]
  omega

/-- Joining dumped items is at least as long as the items together. -/
theorem joinSep_length (sep : List Char) (items : List (List Char)) :
    items.foldr (fun i acc => i.length + acc) 0 ≤ (joinSep sep items).length := by
  induction items with
  | nil => simp [joinSep]
  | cons x xs ih =>
    cases xs with
    | nil => simp [joinSep]
    | cons y ys =>
      rw [show joinSep sep (x :: y :: ys) = x ++ sep ++ joinSep sep (y :: ys) from rfl]
      simp only [List.length_append, List.foldr_cons] at *
      omega

/-- The fuel needed for a string list is below its dumped length. -/
theorem strsFuel_fold (ss : List String) :
    strsFuel ss ≤ (ss.map dumpStr).foldr (fun i acc => i.length + acc) 0 := by
  induction ss with
  | nil => simp [strsFuel]
  | cons s ss ih =>
    simp only [strsFuel, List.foldr_cons, List.map_cons] at *
    have := dumpStr_length s
    omega

/-- The fuel needed for a dumped string array is below its length. -/
theorem dumpArrStr_length (pretty : Bool) (lvl : Nat) (ss : List String) :
    strsFuel ss + 2 ≤ (dumpArr pretty lvl (ss.map dumpStr)).length := by
  cases ss with
  | nil => cases pretty <;> simp [dumpArr, strsFuel]
  | cons s ss =>
    have hf := strsFuel_fold (s :: ss)
    cases pretty with
    | false =>
      have hj := joinSep_length [',', ' '] ((s :: ss).map dumpStr)
      simp only [dumpArr, List.map_cons, List.length_append, List.length_cons,
        Bool.false_eq_true, if_false, if_true] at *
      omega
    | true =>
      have hj := joinSep_length (',' :: indentChars (4 * (lvl + 1))) ((s :: ss).map dumpStr)
      simp only [dumpArr, List.map_cons, List.length_append, List.length_cons,
        Bool.false_eq_true, if_false, if_true] at *
      omega

/-- The fuel needed for a pair list is below its dumped length. -/
theorem pairsFuel_fold (pretty : Bool) (lvl : Nat) (ps : List (String × String)) :
    pairsFuel ps ≤
      (ps.map (fun q => dumpArr pretty lvl [dumpStr q.1, dumpStr q.2])).foldr
        (fun i acc => i.length + acc) 0 := by
  induction ps with
  | nil => simp [pairsFuel]
  | cons p ps ih =>
    have hpair : p.1.data.length + p.2.data.length + 2 ≤
        (dumpArr pretty lvl [dumpStr p.1, dumpStr p.2]).length := by
      have hd1 := dumpStr_length p.1
      have hd2 := dumpStr_length p.2
      cases pretty with
      | false =>
        have hj := joinSep_length [',', ' '] [dumpStr p.1, dumpStr p.2]
        simp only [dumpArr, List.length_append, List.length_cons, List.foldr_cons,
          List.foldr_nil, Bool.false_eq_true, if_false, if_true] at *
        omega
      | true =>
        have hj := joinSep_length (',' :: indentChars (4 * (lvl + 1)))
          [dumpStr p.1, dumpStr p.2]
        simp only [dumpArr, List.length_append, List.length_cons, List.foldr_cons,
          List.foldr_nil, Bool.false_eq_true, if_false, if_true] at *
        omega
    simp only [pairsFuel, List.foldr_cons, List.map_cons] at *
    omega

/-- The fuel needed for a dumped urls array is below its length. -/
theorem dumpArrPair_length (pretty : Bool) (lvl : Nat) (ps : List (String × String)) :
    pairsFuel ps + 2 ≤
      (dumpArr pretty lvl
        (ps.map (fun q => dumpArr pretty (lvl + 1) [dumpStr q.1, dumpStr q.2]))).length := by
  cases ps with
  | nil => cases pretty <;> simp [dumpArr, pairsFuel]
  | cons p ps =>
    have hf := pairsFuel_fold pretty (lvl + 1) (p :: ps)
    cases pretty with
    | false =>
      have hj := joinSep_length [',', ' ']
        ((p :: ps).map (fun q => dumpArr false (lvl + 1) [dumpStr q.1, dumpStr q.2]))
      simp only [dumpArr, List.map_cons, List.length_append, List.length_cons,
        Bool.false_eq_true, if_false, if_true] at *
      omega
    | true =>
      have hj := joinSep_length (',' :: indentChars (4 * (lvl + 1)))
        ((p :: ps).map (fun q => dumpArr true (lvl + 1) [dumpStr q.1, dumpStr q.2]))
      simp only [dumpArr, List.map_cons, List.length_append, List.length_cons,
        Bool.false_eq_true, if_false, if_true] at *
      omega

/-- The dumped manifest is long enough to fuel its own reparse. -/
theorem dumpsManifest_length (pretty : Bool) (d : PkgData) :
    pairsFuel d.urls + strsFuel d.deps + d.version.data.length + 12 ≤
      (dumpsManifest pretty d).length := by
  have hu : pairsFuel d.urls + 2 ≤
      (dumpArr pretty 1
        (d.urls.map (fun p => dumpArr pretty 2 [dumpStr p.1, dumpStr p.2]))).length :=
    dumpArrPair_length pretty 1 d.urls
  have hd := dumpArrStr_length pretty 1 d.deps
  have hv := dumpStr_length d.version
  have hku := dumpStr_length "urls"
  have hkd := dumpStr_length "deps"
  have hkv := dumpStr_length "version"
  have eku : ("urls" : String).data.length = 4 := rfl
  have ekd : ("deps" : String).data.length = 4 := rfl
  have ekv : ("version" : String).data.length = 7 := rfl
  cases pretty with
  | false =>
    have hj := joinSep_length [',', ' ']
      [dumpEntry "urls" (dumpArr false 1
          (d.urls.map (fun p => dumpArr false 2 [dumpStr p.1, dumpStr p.2]))),
       dumpEntry "deps" (dumpArr false 1 (d.deps.map dumpStr)),
       dumpEntry "version" (dumpStr d.version)]
    have hobj : (dumpsManifest false d).length =
        (lbrace :: (joinSep [',', ' ']
          [dumpEntry "urls" (dumpArr false 1
              (d.urls.map (fun p => dumpArr false 2 [dumpStr p.1, dumpStr p.2]))),
           dumpEntry "deps" (dumpArr false 1 (d.deps.map dumpStr)),
           dumpEntry "version" (dumpStr d.version)] ++ [rbrace])).length := rfl
    rw [hobj]
    simp only [dumpEntry, List.length_append, List.length_cons, List.length_singleton,
      List.foldr_cons, List.foldr_nil] at hj ⊢
    omega
  | true =>
    have hj := joinSep_length (',' :: indentChars 4)
      [dumpEntry "urls" (dumpArr true 1
          (d.urls.map (fun p => dumpArr true 2 [dumpStr p.1, dumpStr p.2]))),
       dumpEntry "deps" (dumpArr true 1 (d.deps.map dumpStr)),
       dumpEntry "version" (dumpStr d.version)]
    have hobj : (dumpsManifest true d).length =
        (lbrace :: ((indentChars 4 ++ joinSep (',' :: indentChars 4)
          [dumpEntry "urls" (dumpArr true 1
              (d.urls.map (fun p => dumpArr true 2 [dumpStr p.1, dumpStr p.2]))),
           dumpEntry "deps" (dumpArr true 1 (d.deps.map dumpStr)),
           dumpEntry "version" (dumpStr d.version)] ++ indentChars 0) ++ [rbrace])).length := rfl
    rw [hobj]
    simp only [dumpEntry, List.length_append, List.length_cons, List.length_singleton,
      List.foldr_cons, List.foldr_nil] at hj ⊢
    omega

/-- Reparsing a dumped manifest recovers the manifest dict, in both layout
modes. -/
theorem parseManifest_dumps (pretty : Bool) (d : PkgData) :
    parseManifest (dumpsManifest pretty d) = some (toMDict d) := by
  have hlen := dumpsManifest_length pretty d
  unfold parseManifest
  cases pretty with
  | false =>
    have h0 : (dumpsManifest false d).data =
        dumpObj false
          [dumpEntry "urls" (dumpArr false 1
              (d.urls.map (fun p => dumpArr false 2 [dumpStr p.1, dumpStr p.2]))),
           dumpEntry "deps" (dumpArr false 1 (d.deps.map dumpStr)),
           dumpEntry "version" (dumpStr d.version)] := rfl
    have hshape : (dumpsManifest false d).data =
        lbrace :: (dumpStr "urls" ++ (':' :: (' ' :: (dumpArr false 1 (d.urls.map (fun p => dumpArr false 2 [dumpStr p.1, dumpStr p.2])) ++ (',' :: ([' '] ++ (dumpStr "deps" ++ (':' :: (' ' :: (dumpArr false 1 (d.deps.map dumpStr) ++ (',' :: ([' '] ++ (dumpStr "version" ++ (':' :: (' ' :: (dumpStr d.version ++ (([] : List Char) ++ (rbrace :: ([] : List Char))))))))))))))))))) := by
      rw [h0]
      simp [dumpObj, dumpEntry, joinSep, List.append_assoc]
    rw [hshape]
    rw [expectChar_cons (by decide)]
    dsimp only
    have hW : (dumpStr "urls" ++ (':' :: (' ' :: (dumpArr false 1 (d.urls.map (fun p => dumpArr false 2 [dumpStr p.1, dumpStr p.2])) ++ (',' :: ([' '] ++ (dumpStr "deps" ++ (':' :: (' ' :: (dumpArr false 1 (d.deps.map dumpStr) ++ (',' :: ([' '] ++ (dumpStr "version" ++ (':' :: (' ' :: (dumpStr d.version ++ (([] : List Char) ++ (rbrace :: ([] : List Char))))))))))))))))))) = ('"' :: ((("urls" : String).data.flatMap escapeChar ++ ['"']) ++ (':' :: (' ' :: (dumpArr false 1 (d.urls.map (fun p => dumpArr false 2 [dumpStr p.1, dumpStr p.2])) ++ (',' :: ([' '] ++ (dumpStr "deps" ++ (':' :: (' ' :: (dumpArr false 1 (d.deps.map dumpStr) ++ (',' :: ([' '] ++ (dumpStr "version" ++ (':' :: (' ' :: (dumpStr d.version ++ (([] : List Char) ++ (rbrace :: ([] : List Char)))))))))))))))))))) := by
      simp [dumpStr]
    rw [hW, skipWs_cons (by decide)]
    dsimp only
    rw [if_neg (show ¬((('"' : Char) == rbrace) = true) by decide)]
    rw [← hW]
    rw [show (dumpStr "urls" ++ (':' :: (' ' :: (dumpArr false 1 (d.urls.map (fun p => dumpArr false 2 [dumpStr p.1, dumpStr p.2])) ++ (',' :: ([' '] ++ (dumpStr "deps" ++ (':' :: (' ' :: (dumpArr false 1 (d.deps.map dumpStr) ++ (',' :: ([' '] ++ (dumpStr "version" ++ (':' :: (' ' :: (dumpStr d.version ++ (([] : List Char) ++ (rbrace :: ([] : List Char))))))))))))))))))) = ([] : List Char) ++ (dumpStr "urls" ++ (':' :: (' ' :: (dumpArr false 1 (d.urls.map (fun p => dumpArr false 2 [dumpStr p.1, dumpStr p.2])) ++ (',' :: ([' '] ++ (dumpStr "deps" ++ (':' :: (' ' :: (dumpArr false 1 (d.deps.map dumpStr) ++ (',' :: ([' '] ++ (dumpStr "version" ++ (':' :: (' ' :: (dumpStr d.version ++ (([] : List Char) ++ (rbrace :: ([] : List Char))))))))))))))))))) from rfl]
    rw [parseEntries_manifest false d _ [] [' '] [' '] [] (by decide) (by decide)
      (by decide) (by decide) [] (by omega)]
    rfl
  | true =>
    have h0 : (dumpsManifest true d).data =
        dumpObj true
          [dumpEntry "urls" (dumpArr true 1
              (d.urls.map (fun p => dumpArr true 2 [dumpStr p.1, dumpStr p.2]))),
           dumpEntry "deps" (dumpArr true 1 (d.deps.map dumpStr)),
           dumpEntry "version" (dumpStr d.version)] := rfl
    have hshape : (dumpsManifest true d).data =
        lbrace :: (indentChars 4 ++ (dumpStr "urls" ++ (':' :: (' ' :: (dumpArr true 1 (d.urls.map (fun p => dumpArr true 2 [dumpStr p.1, dumpStr p.2])) ++ (',' :: (indentChars 4 ++ (dumpStr "deps" ++ (':' :: (' ' :: (dumpArr true 1 (d.deps.map dumpStr) ++ (',' :: (indentChars 4 ++ (dumpStr "version" ++ (':' :: (' ' :: (dumpStr d.version ++ (indentChars 0 ++ (rbrace :: ([] : List Char)))))))))))))))))))) := by
      rw [h0]
      simp [dumpObj, dumpEntry, joinSep, List.append_assoc]
    rw [hshape]
    rw [expectChar_cons (by decide)]
    dsimp only
    have hW : (dumpStr "urls" ++ (':' :: (' ' :: (dumpArr true 1 (d.urls.map (fun p => dumpArr true 2 [dumpStr p.1, dumpStr p.2])) ++ (',' :: (indentChars 4 ++ (dumpStr "deps" ++ (':' :: (' ' :: (dumpArr true 1 (d.deps.map dumpStr) ++ (',' :: (indentChars 4 ++ (dumpStr "version" ++ (':' :: (' ' :: (dumpStr d.version ++ (indentChars 0 ++ (rbrace :: ([] : List Char))))))))))))))))))) = ('"' :: ((("urls" : String).data.flatMap escapeChar ++ ['"']) ++ (':' :: (' ' :: (dumpArr true 1 (d.urls.map (fun p => dumpArr true 2 [dumpStr p.1, dumpStr p.2])) ++ (',' :: (indentChars 4 ++ (dumpStr "deps" ++ (':' :: (' ' :: (dumpArr true 1 (d.deps.map dumpStr) ++ (',' :: (indentChars 4 ++ (dumpStr "version" ++ (':' :: (' ' :: (dumpStr d.version ++ (indentChars 0 ++ (rbrace :: ([] : List Char)))))))))))))))))))) := by
      simp [dumpStr]
    rw [skipWs_append (wsOnly_indentChars 4), hW, skipWs_cons (by decide)]
    dsimp only
    rw [if_neg (show ¬((('"' : Char) == rbrace) = true) by decide)]
    rw [← hW]
    rw [parseEntries_manifest true d _ (indentChars 4) (indentChars 4) (indentChars 4)
      (indentChars 0) (wsOnly_indentChars 4) (wsOnly_indentChars 4)
      (wsOnly_indentChars 4) (wsOnly_indentChars 0) [] (by omega)]
    rfl

/-- C6: round-trip — for every configuration from which a manifest is
derived, persisting the derived manifest with `create` (in either the
pretty-printed or the compact mode) and loading that file back with
`package_json_data` yields exactly the derived data (as a dict, i.e.
modulo key order), and a fresh derivation still returns the same data. -/
theorem C6_create_load_roundtrip (inst : Inst) (pretty : Bool) (d : PkgData)
    (content : String) (h1 : package_data inst = .ok d)
    (h2 : create_content inst pretty = .ok content) :
    package_json_data { inst with packageFile := some content } = .ok (toMDict d) ∧
    package_data { inst with packageFile := some content } = .ok d := by
  have hc : content = dumpsManifest pretty d := by
    unfold create_content at h2
    rw [h1] at h2
    simp only [Except.map] at h2
    exact (Except.ok.inj h2).symm
  subst hc
  constructor
  · unfold package_json_data
    dsimp only
    rw [parseManifest_dumps]
  · calc package_data { inst with packageFile := some (dumpsManifest pretty d) }
        = package_data inst := rfl
      _ = .ok d := h1

/-- C6 witness: the round trip at the worked example, in both modes. -/
theorem C6_create_load_roundtrip_witness :
    package_data instC3v = .ok mfC3 ∧
    create_content instC3v true = .ok (dumpsManifest true mfC3) ∧
    create_content instC3v false = .ok (dumpsManifest false mfC3) ∧
    package_json_data { instC3v with packageFile := some (dumpsManifest true mfC3) } =
      .ok (toMDict mfC3) ∧
    package_json_data { instC3v with packageFile := some (dumpsManifest false mfC3) } =
      .ok (toMDict mfC3) := by
  refine ⟨rfl, rfl, rfl, ?_, ?_⟩
  · exact (C6_create_load_roundtrip instC3v true mfC3 (dumpsManifest true mfC3)
      rfl rfl).1
  · exact (C6_create_load_roundtrip instC3v false mfC3 (dumpsManifest false mfC3)
      rfl rfl).1

end Pyproject2uPyPackage
